import Mathlib

/-!
# A shallow embedding of the star-schema SQL generator

The development follows the Go sources file by file.

* `set/set.go`  : the ordered, deduplicating container `Set`.
* `sql/db.go`   : the schema model (`Database`, `Table`, `ForeignKey`).
* `sql/writer.go`, `sql/sql.go` : the text emitters and the generator.

Modelling conventions.

* A Go `string` is a Lean `String`; only `==`, `!=` against `""` and
  concatenation are used by the program, and they agree on both.
* A `*strings.Builder` is the text written so far (`Builder`); a method
  `Write(b)` becomes a function from the buffer before the call to the
  buffer after it.
* A Go function value is a Lean function into `Option`; `none` is a run-time
  panic (calling the nil function is the function that always panics).
  Functions of the program that can panic return `Option`, with `none` for
  the panic.
* A pointer that may be nil is an `Option`; a pointer receiver that is
  mutated is returned as part of the result.
* A slice is the list of the elements it shows. This is what the holder of
  the slice reads and what it shows after its own `append`. The effect of an
  `append` on other copies of the slice header, which share the backing
  array, is modelled apart, with a heap of arrays (namespace `shared`).
* The zero value of a Go type is given by the class `GoZero`.
-/

namespace Olap

/-- Go zero value of a type (what `var x T` holds). -/
class GoZero (T : Type) where
  zero : T

instance : GoZero String := ⟨""⟩

/-! ## Package `set` -/

namespace set

/-- Go type `FnMatch[T]`; the result `none` is a panic of the call. -/
abbrev FnMatch (T : Type) := T → Option Bool

/-- Go type `FnEqual[T]`; the result `none` is a panic of the call. -/
abbrev FnEqual (T : Type) := T → T → Option Bool

/-- The nil function value of type `FnEqual[T]`: every call panics. -/
def nilFnEqual (T : Type) : FnEqual T := fun _ _ => none

/-- Go struct `Set[T]`: the items in insertion order and the equality. The
slice `items` is the list of the elements it shows; the backing array, which
copies of the set share, is modelled in the namespace `shared` below. -/
structure Set (T : Type) where
  items : List T
  eq : FnEqual T

instance (T : Type) : GoZero (Set T) := ⟨{ items := [], eq := nilFnEqual T }⟩

/-- Go `MakeSet`: only `eq` is set, `items` is the nil slice. -/
def MakeSet {T : Type} (eq : FnEqual T) : Set T :=
  { items := [], eq := eq }

/-- Go `EqualityMatcher`: the closure calls `eq(item, item0)`. -/
def EqualityMatcher {T : Type} (eq : FnEqual T) (item : T) : FnMatch T :=
  fun item0 => eq item item0

/-- The `for index, item := range s.items` loop of `IndexWith`, started at
position `index` on the remaining items. -/
def IndexWithFrom {T : Type} (matcher : FnMatch T) : List T → Int → Option Int
  | [], _ => some (-1)
  | item :: rest, index =>
    match matcher item with
    | none => none
    | some true => some index
    | some false => IndexWithFrom matcher rest (index + 1)

/-- Go `(*Set).IndexWith`. -/
def Set.IndexWith {T : Type} (s : Set T) (matcher : FnMatch T) : Option Int :=
  IndexWithFrom matcher s.items 0

/-- Go `(*Set).Index`. -/
def Set.Index {T : Type} (s : Set T) (item : T) : Option Int :=
  s.IndexWith (EqualityMatcher s.eq item)

/-- Go `(*Set).Find`: the named results start at their zero values; indexing
the slice out of range would panic. -/
def Set.Find {T : Type} [GoZero T] (s : Set T) (matcher : FnMatch T) : Option (T × Bool) :=
  match s.IndexWith matcher with
  | none => none
  | some index =>
    if index = -1 then
      some (GoZero.zero, false)
    else
      match s.items.get? index.toNat with
      | none => none
      | some result => some (result, true)

/-- Go `(*Set).Add`: returns false if already exists. The result carries
the set after the call, that is what the receiver shows then (`shared_Add_view`).
What another copy of the set shows after the call is not given by this
function: `append` may write into the array the copy shares, see
`shared.Set.Add`. -/
def Set.Add {T : Type} (s : Set T) (item : T) : Option (Bool × Set T) :=
  match s.Index item with
  | none => none
  | some index =>
    if index = -1 then
      some (true, { s with items := s.items ++ [item] })
    else
      some (false, s)

/-- Go `(*Set).Count`. -/
def Set.Count {T : Type} (s : Set T) : Int :=
  (s.items.length : Int)

/-- The `for _, item := range s.items` loop of `Iter` on the remaining
items. The callback acts on a state `σ` (what the Go closure captures) and
returns whether to continue. -/
def IterFrom {T σ : Type} (fn : T → σ → Option (Bool × σ)) : List T → σ → Option σ
  | [], st => some st
  | item :: rest, st =>
    match fn item st with
    | none => none
    | some (cont, st1) => if !cont then some st1 else IterFrom fn rest st1

/-- Go `(*Set).Iter`. -/
def Set.Iter {T σ : Type} (s : Set T) (fn : T → σ → Option (Bool × σ)) (st : σ) :
    Option σ :=
  IterFrom fn s.items st

end set

/-! ## Package `sql`, file `db.go` -/

namespace sql

/-- Go struct `ForeignKey`. -/
structure ForeignKey where
  Key : String
  Target : String
deriving DecidableEq, Repr

/-- Go struct `Table`. -/
structure Table where
  Name : String
  PK : String
  FKeys : set.Set ForeignKey

/-- Go struct `Database`. -/
structure Database where
  Name : String
  Tables : set.Set Table

instance : GoZero ForeignKey := ⟨{ Key := "", Target := "" }⟩

instance : GoZero Table := ⟨{ Name := "", PK := "", FKeys := GoZero.zero }⟩

instance : GoZero Database := ⟨{ Name := "", Tables := GoZero.zero }⟩

/-- Go `TableEqual`. -/
def TableEqual : set.FnEqual Table :=
  fun table1 table2 => some (table1.Name == table2.Name)

/-- Go `FKeyEqual`. -/
def FKeyEqual : set.FnEqual ForeignKey :=
  fun fk1 fk2 => some (fk1.Key == fk2.Key)

/-- Go `MakeDatabase`. -/
def MakeDatabase (name : String) : Database :=
  { Name := name, Tables := set.MakeSet TableEqual }

/-- Go `MakeTable`. -/
def MakeTable (name : String) (pk : String) : Table :=
  { Name := name, PK := pk, FKeys := set.MakeSet FKeyEqual }

/-- Go `(*Database).AddTable`; the result carries the database after the
call. -/
def Database.AddTable (db : Database) (t : Table) : Option (Bool × Database) :=
  match db.Tables.Add t with
  | none => none
  | some (ok, tables) => some (ok, { db with Tables := tables })

/-- Go `TableByName`. -/
def TableByName (name : String) : set.FnMatch Table :=
  fun t => some (t.Name == name)

/-- Go `FKeyByKey`. -/
def FKeyByKey (key : String) : set.FnMatch ForeignKey :=
  fun fk => some (fk.Key == key)

/-- Go `(*Database).GetTable` on a non-nil receiver. -/
def Database.GetTable (db : Database) (name : String) : Option Table :=
  match db.Tables.Find (TableByName name) with
  | none => none
  | some (result, _) => some result

/-- Go `(*Table).AddFKey`; the result carries the table after the call. -/
def Table.AddFKey (table : Table) (fk : ForeignKey) : Option (Bool × Table) :=
  match table.FKeys.Add fk with
  | none => none
  | some (ok, fkeys) => some (ok, { table with FKeys := fkeys })

/-- Go `(*Table).GetFKey`. -/
def Table.GetFKey (table : Table) (key : String) : Option ForeignKey :=
  match table.FKeys.Find (FKeyByKey key) with
  | none => none
  | some (result, _) => some result

/-! ## Package `sql`, file `writer.go` -/

/-- The text held by a `strings.Builder`. -/
abbrev Builder := String

/-- Go `(*strings.Builder).WriteString`: append to the buffer. -/
def Builder.WriteString (b : Builder) (s : String) : Builder :=
  b ++ s

/-- Go interface `Writer`, for the implementations that cannot panic: the
method `Write(b)` as a function from the buffer before to the buffer after. -/
abbrev Writer := Builder → Builder

/-- Go `WriteString(w)`: run `w.Write` on a fresh builder and return its
text. The monad `m` is `Id` for a writer that cannot panic and `Option` for
one that can. -/
def WriteString {m : Type → Type} (w : Builder → m Builder) : m String :=
  w ""

/-- Go `WriteAll`: call `Write` of each writer in turn on the same builder;
a panic of one stops the sequence. -/
def WriteAll {m : Type → Type} [Monad m] (b : Builder) :
    List (Builder → m Builder) → m Builder
  | [] => pure b
  | w :: writers => w b >>= fun b1 => WriteAll b1 writers

/-! ## Package `sql`, file `sql.go` -/

/-- Go struct `Select`. -/
structure Select where
  Column : String
  Table : String
  Alias : String
  Aggregate : String
deriving DecidableEq, Repr

/-- Go struct `GeneratorOptions`. -/
structure GeneratorOptions where
  CaseSensitive : Bool
  ForceGroupBy : Bool
deriving DecidableEq, Repr

/-- Go struct `SQLGenerator`; `DB` is a pointer, `none` when nil. -/
structure SQLGenerator where
  DB : Option Database
  Options : GeneratorOptions
  FromName : String
  Selects : List Select

instance : GoZero GeneratorOptions := ⟨{ CaseSensitive := false, ForceGroupBy := false }⟩

instance : GoZero SQLGenerator :=
  ⟨{ DB := none, Options := GoZero.zero, FromName := "", Selects := [] }⟩

/-- Go `(*SQLGenerator).AddSelect`; returns the generator after the call. -/
def SQLGenerator.AddSelect (gen : SQLGenerator) (s : Select) : SQLGenerator :=
  let gen1 := if gen.FromName = "" then { gen with FromName := s.Table } else gen
  { gen1 with Selects := gen1.Selects ++ [s] }

/-- Go interface `SurroundWriter` with its three implementations
`FnCallWriter`, `SurroundSimple` and `SurroundNone`. -/
inductive SurroundWriter where
  | FnCallWriter (fnName : String)
  | SurroundSimple (Open Close : String)
  | SurroundNone
deriving DecidableEq, Repr

/-- Go `WriteOpen` of the three implementations. -/
def SurroundWriter.WriteOpen (sw : SurroundWriter) (b : Builder) : Builder :=
  match sw with
  | .FnCallWriter fnName => (b.WriteString fnName).WriteString "("
  | .SurroundSimple op _ => b.WriteString op
  | .SurroundNone => b

/-- Go `WriteClose` of the three implementations. -/
def SurroundWriter.WriteClose (sw : SurroundWriter) (b : Builder) : Builder :=
  match sw with
  | .FnCallWriter _ => b.WriteString ")"
  | .SurroundSimple _ cl => b.WriteString cl
  | .SurroundNone => b

/-- Go `WriteSurrounded`. -/
def WriteSurrounded (b : Builder) (sw : SurroundWriter) (content : Writer) : Builder :=
  let b1 := sw.WriteOpen b
  let b2 := content b1
  sw.WriteClose b2

/-- Go struct `TextWriter`. -/
structure TextWriter where
  Text : String
deriving DecidableEq, Repr

/-- Go `TextWriter.Write`. -/
def TextWriter.Write (w : TextWriter) (b : Builder) : Builder :=
  b.WriteString w.Text

/-- Go struct `IdentifierWriter`. -/
structure IdentifierWriter where
  Quote : Bool
  Identifier : String
  Namespace : String
deriving DecidableEq, Repr

/-- Go `QuoteSurroundWriter`. -/
def QuoteSurroundWriter (useQuote : Bool) : SurroundWriter :=
  if useQuote then .SurroundSimple "\"" "\"" else .SurroundNone

/-- Go `AggregateSurroundWriter`. -/
def AggregateSurroundWriter (aggregate : String) : SurroundWriter :=
  if aggregate = "" then .SurroundNone else .FnCallWriter aggregate

/-- Go `IdentifierWriter.Write`. -/
def IdentifierWriter.Write (iw : IdentifierWriter) (b : Builder) : Builder :=
  let sw := QuoteSurroundWriter iw.Quote
  let b1 :=
    if iw.Namespace ≠ "" then
      (WriteSurrounded b sw (TextWriter.mk iw.Namespace).Write).WriteString "."
    else b
  WriteSurrounded b1 sw (TextWriter.mk iw.Identifier).Write

/-- Go struct `SelectWriter` (embeds `Select` and `GeneratorOptions`). -/
structure SelectWriter where
  Select : Select
  GeneratorOptions : GeneratorOptions
deriving DecidableEq, Repr

/-- Go `SelectWriter.Write`. -/
def SelectWriter.Write (s : SelectWriter) (b : Builder) : Builder :=
  let b1 := WriteSurrounded b (AggregateSurroundWriter s.Select.Aggregate)
    (IdentifierWriter.Write
      { Quote := s.GeneratorOptions.CaseSensitive, Identifier := s.Select.Column,
        Namespace := s.Select.Table })
  if s.Select.Alias ≠ "" then
    WriteSurrounded (b1.WriteString " as ") (QuoteSurroundWriter true)
      (TextWriter.mk s.Select.Alias).Write
  else b1

/-- Go struct `SQLJoin`. -/
structure SQLJoin where
  JoinTarget : Writer
  OnCond : Writer
  Equals : Writer

/-- Go `SQLJoin.Write`. -/
def SQLJoin.Write (join : SQLJoin) (b : Builder) : Builder :=
  let b1 := b.WriteString "\n"
  let b2 := b1.WriteString "join "
  let b3 := join.JoinTarget b2
  let b4 := b3.WriteString " on "
  let b5 := join.OnCond b4
  let b6 := b5.WriteString " = "
  join.Equals b6

/-- Go struct `JoinWriter` (embeds `*SQLGenerator`); the embedded pointer is
the generator it points to, `Write` building it from its own receiver. -/
structure JoinWriter where
  SQLGenerator : SQLGenerator

/-- Go `JoinWriter.IterateJoins`. The callback `fn` acts on the state `σ` it
captures. Dereferencing a nil `gen.DB` panics. -/
def JoinWriter.IterateJoins {σ : Type} (jw : JoinWriter) (fn : SQLJoin → σ → Option σ)
    (st : σ) : Option σ :=
  let gen := jw.SQLGenerator
  match gen.DB with
  | none => none
  | some db =>
    match db.GetTable gen.FromName with
    | none => none
    | some base =>
      base.FKeys.Iter (fun fkey st0 =>
        match db.GetTable fkey.Target with
        | none => none
        | some target =>
          let join : SQLJoin :=
            { JoinTarget := IdentifierWriter.Write
                { Quote := gen.Options.CaseSensitive, Identifier := fkey.Target, Namespace := "" }
              OnCond := IdentifierWriter.Write
                { Quote := gen.Options.CaseSensitive, Namespace := fkey.Target,
                  Identifier := target.PK }
              Equals := IdentifierWriter.Write
                { Quote := gen.Options.CaseSensitive, Namespace := gen.FromName,
                  Identifier := fkey.Key } }
          match fn join st0 with
          | none => none
          | some st1 => some (true, st1)) st

/-- Go `JoinWriter.Write`. -/
def JoinWriter.Write (jw : JoinWriter) (b : Builder) : Option Builder :=
  jw.IterateJoins (fun join b0 => some (join.Write b0)) b

/-- Go struct `GroupByWriter` (embeds `*SQLGenerator`); the embedded pointer
is the generator it points to, `Write` building it from its own receiver. -/
structure GroupByWriter where
  SQLGenerator : SQLGenerator

/-- The `for _, s := range Selects` loop of `ShouldWrite` with the
`return false` that follows it. -/
def GroupByWriter.ShouldWriteLoop : List Select → Bool
  | [] => false
  | s :: rest => if s.Aggregate ≠ "" then true else GroupByWriter.ShouldWriteLoop rest

/-- Go `GroupByWriter.ShouldWrite`. -/
def GroupByWriter.ShouldWrite (w : GroupByWriter) : Bool :=
  if w.SQLGenerator.Options.ForceGroupBy then true
  else GroupByWriter.ShouldWriteLoop w.SQLGenerator.Selects

/-- Go struct `LoopSeparatorJoiner`. -/
structure LoopSeparatorJoiner where
  First : Bool
  Join : Writer

/-- Go `MakeLoopSeparatorJoinerWith`. -/
def MakeLoopSeparatorJoinerWith (join : Writer) : LoopSeparatorJoiner :=
  { First := true, Join := join }

/-- Go `MakeLoopSeparatorJoiner`. -/
def MakeLoopSeparatorJoiner (join : String) : LoopSeparatorJoiner :=
  MakeLoopSeparatorJoinerWith (TextWriter.mk join).Write

/-- Go `(*LoopSeparatorJoiner).Write`; returns the joiner after the call and
the buffer. -/
def LoopSeparatorJoiner.Write (sep : LoopSeparatorJoiner) (b : Builder) :
    LoopSeparatorJoiner × Builder :=
  if sep.First then ({ sep with First := false }, b)
  else (sep, sep.Join b)

/-- Go struct `IndentWriter`. -/
structure IndentWriter where
  Level : Int
deriving DecidableEq, Repr

/-- The loop `for i := 0; i < Level; i++` of `IndentWriter.Write` with `n`
iterations left. -/
def IndentWriter.WriteLoop : Nat → Builder → Builder
  | 0, b => b
  | n + 1, b => IndentWriter.WriteLoop n (b.WriteString "    ")

/-- Go `IndentWriter.Write`: `Level` iterations, none when it is negative. -/
def IndentWriter.Write (w : IndentWriter) (b : Builder) : Builder :=
  IndentWriter.WriteLoop w.Level.toNat b

/-- The `for _, s := range Selects` loop of `GroupByWriter.Write`. The call
`WriteAll(b, comma, indent, ident)` writes the joiner first, which changes
the joiner, then the two stateless writers. -/
def GroupByWriter.WriteLoop (opts : GeneratorOptions) (indent : IndentWriter) :
    List Select → LoopSeparatorJoiner → Builder → LoopSeparatorJoiner × Builder
  | [], comma, b => (comma, b)
  | s :: rest, comma, b =>
    if s.Aggregate ≠ "" then
      GroupByWriter.WriteLoop opts indent rest comma b
    else
      let ident : IdentifierWriter :=
        { Quote := opts.CaseSensitive, Identifier := s.Column, Namespace := s.Table }
      let (comma1, b1) := comma.Write b
      let b2 : Builder := WriteAll (m := Id) b1 [indent.Write, ident.Write]
      GroupByWriter.WriteLoop opts indent rest comma1 b2

/-- Go `GroupByWriter.Write`. -/
def GroupByWriter.Write (w : GroupByWriter) (b : Builder) : Builder :=
  if !w.ShouldWrite then b
  else
    let b1 := b.WriteString "\ngroup by\n"
    let comma := MakeLoopSeparatorJoiner ",\n"
    let indent : IndentWriter := { Level := 1 }
    (GroupByWriter.WriteLoop w.SQLGenerator.Options indent w.SQLGenerator.Selects comma b1).2

/-- The `for _, s := range gen.Selects` loop of `(*SQLGenerator).Write`. -/
def SQLGenerator.WriteLoop (opts : GeneratorOptions) (indent : IndentWriter) :
    List Select → LoopSeparatorJoiner → Builder → LoopSeparatorJoiner × Builder
  | [], comma, b => (comma, b)
  | s :: rest, comma, b =>
    let (comma1, b1) := comma.Write b
    let b2 := indent.Write b1
    let sw : SelectWriter := { Select := s, GeneratorOptions := opts }
    let b3 := sw.Write b2
    SQLGenerator.WriteLoop opts indent rest comma1 b3

/-- Go `(*SQLGenerator).Write`. It panics exactly when `JoinWriter` does. -/
def SQLGenerator.Write (gen : SQLGenerator) (b : Builder) : Option Builder :=
  let b1 := b.WriteString "select\n"
  let comma := MakeLoopSeparatorJoiner ",\n"
  let indent : IndentWriter := { Level := 1 }
  let b2 := (SQLGenerator.WriteLoop gen.Options indent gen.Selects comma b1).2
  let b3 := b2.WriteString "\nfrom "
  let fromW : IdentifierWriter :=
    { Quote := gen.Options.CaseSensitive, Identifier := gen.FromName, Namespace := "" }
  let join : JoinWriter := { SQLGenerator := gen }
  let groupBy : GroupByWriter := { SQLGenerator := gen }
  WriteAll b3 [fun b0 => some (fromW.Write b0), join.Write, fun b0 => some (groupBy.Write b0)]

/-! ## Derived texts

The text a writer produces on a fresh builder, for the writers the
statements below speak about. -/

/-- Text written by `IdentifierWriter{Quote, Identifier, Namespace}` on a
fresh builder. -/
def identString (quote : Bool) (ns : String) (ident : String) : String :=
  WriteString (m := Id)
    (IdentifierWriter.Write { Quote := quote, Identifier := ident, Namespace := ns })

/-- Text written by `SelectWriter{s, opts}` on a fresh builder. -/
def selectString (opts : GeneratorOptions) (s : Select) : String :=
  WriteString (m := Id) (SelectWriter.Write { Select := s, GeneratorOptions := opts })

/-- Text written by `GroupByWriter{gen}` on a fresh builder. -/
def groupByString (gen : SQLGenerator) : String :=
  WriteString (m := Id) (GroupByWriter.Write { SQLGenerator := gen })

/-- Text written by `JoinWriter{gen}` on a fresh builder, `none` when it
panics. -/
def joinString (gen : SQLGenerator) : Option String :=
  WriteString (JoinWriter.Write { SQLGenerator := gen })

/-- The first part of `(*SQLGenerator).Write`, from `b.WriteString("select\n")`
to the end of the loop over `gen.Selects` (lines 259-267 of `sql.go`). -/
def SQLGenerator.WriteSelectSection (gen : SQLGenerator) (b : Builder) : Builder :=
  let b1 := b.WriteString "select\n"
  let comma := MakeLoopSeparatorJoiner ",\n"
  let indent : IndentWriter := { Level := 1 }
  (SQLGenerator.WriteLoop gen.Options indent gen.Selects comma b1).2

/-- Number of double-quote characters in a text. -/
def quoteCount (s : String) : Nat :=
  s.data.count '"'

/-! ## The scenarios of `basic_test.go`

Each definition replays the statements of one test function; `expectSQL`
compares `WriteString(gen)` with the expected text. -/

/-- Generator built by `TestSingleTable`. -/
def TestSingleTable.gen : Option SQLGenerator := do
  let db := MakeDatabase "StarDB"
  let franchise := MakeTable "DimFranchise" "id"
  let (_, db) ← db.AddTable franchise
  let gen : SQLGenerator := GoZero.zero
  let gen := { gen with DB := some db }
  let gen := gen.AddSelect
    { Column := "FranchiseName", Table := franchise.Name, Alias := "", Aggregate := "" }
  pure gen

/-- Generator built by `TestOneDimension`. -/
def TestOneDimension.gen : Option SQLGenerator := do
  let db := MakeDatabase "StarDB"
  let franchise := MakeTable "DimFranchise" "id"
  let sales := MakeTable "FactSales" "id"
  let (_, sales) ← sales.AddFKey { Key := "FranchiseId", Target := franchise.Name }
  let (_, db) ← db.AddTable franchise
  let (_, db) ← db.AddTable sales
  let gen : SQLGenerator := GoZero.zero
  let gen := { gen with DB := some db }
  let gen := { gen with FromName := sales.Name }
  let gen := gen.AddSelect
    { Column := "FranchiseName", Table := franchise.Name, Alias := "", Aggregate := "" }
  pure gen

/-- Generator built by `TestTwoDimension`. -/
def TestTwoDimension.gen : Option SQLGenerator := do
  let db := MakeDatabase "StarDB"
  let franchise := MakeTable "DimFranchise" "id"
  let store := MakeTable "DimStore" "id"
  let sales := MakeTable "FactSales" "id"
  let (_, sales) ← sales.AddFKey { Key := "FranchiseId", Target := franchise.Name }
  let (_, sales) ← sales.AddFKey { Key := "StoreId", Target := store.Name }
  let (_, db) ← db.AddTable sales
  let (_, db) ← db.AddTable franchise
  let (_, db) ← db.AddTable store
  let gen : SQLGenerator := GoZero.zero
  let gen := { gen with DB := some db }
  let gen := { gen with FromName := sales.Name }
  let gen := gen.AddSelect
    { Column := "FranchiseName", Table := franchise.Name, Alias := "", Aggregate := "" }
  let gen := gen.AddSelect
    { Column := "StoreName", Table := store.Name, Alias := "", Aggregate := "" }
  pure gen

/-- Generator built by `TestAggregate`. -/
def TestAggregate.gen : Option SQLGenerator := do
  let gen ← TestTwoDimension.gen
  let gen := gen.AddSelect
    { Aggregate := "sum", Column := "Quantity", Table := "FactSales", Alias := "Products Sold" }
  pure gen

/-! ## Further scenarios -/

/-- A base table whose name is the empty string, registered with no foreign
key, and one plain Select of its column `C`. -/
def EmptyBaseName.gen : Option SQLGenerator := do
  let db := MakeDatabase "StarDB"
  let t := MakeTable "" "id"
  let (_, db) ← db.AddTable t
  let gen : SQLGenerator := GoZero.zero
  let gen := { gen with DB := some db }
  let gen := gen.AddSelect { Column := "C", Table := t.Name, Alias := "", Aggregate := "" }
  pure gen

/-- A foreign key whose target is the empty name, with a table of that name
(primary key `id`) registered; the base table is `F`. -/
def EmptyTarget.gen : Option SQLGenerator := do
  let db := MakeDatabase "StarDB"
  let anon := MakeTable "" "id"
  let f := MakeTable "F" "id"
  let (_, f) ← f.AddFKey { Key := "k", Target := anon.Name }
  let (_, db) ← db.AddTable anon
  let (_, db) ← db.AddTable f
  let gen : SQLGenerator := GoZero.zero
  let gen := { gen with DB := some db }
  let gen := { gen with FromName := f.Name }
  pure gen

/-- A base table named by the empty string with a foreign key `k` to `D`. -/
def EmptyFromName.gen : Option SQLGenerator := do
  let db := MakeDatabase "StarDB"
  let d := MakeTable "D" "id"
  let anon := MakeTable "" "id"
  let (_, anon) ← anon.AddFKey { Key := "k", Target := d.Name }
  let (_, db) ← db.AddTable d
  let (_, db) ← db.AddTable anon
  let gen : SQLGenerator := GoZero.zero
  let gen := { gen with DB := some db }
  let gen := gen.AddSelect { Column := "C", Table := anon.Name, Alias := "", Aggregate := "" }
  pure gen

/-- The database `TestOneDimension` has built when it renders. -/
def OneDimension.db : Database :=
  { Name := "StarDB"
    Tables :=
      { items :=
          [ MakeTable "DimFranchise" "id",
            { Name := "FactSales", PK := "id"
              FKeys := { items := [{ Key := "FranchiseId", Target := "DimFranchise" }],
                         eq := FKeyEqual } } ]
        eq := TableEqual } }

/-- The generator `TestOneDimension` has built when it renders. -/
def OneDimension.gen : SQLGenerator :=
  { DB := some OneDimension.db
    Options := { CaseSensitive := false, ForceGroupBy := false }
    FromName := "FactSales"
    Selects := [{ Column := "FranchiseName", Table := "DimFranchise", Alias := "",
                  Aggregate := "" }] }

/-- The Selects and options of `TestAggregate`, without a database (the
group-by emitter does not read it). -/
def AggregateSelects.gen : SQLGenerator :=
  { DB := none
    Options := { CaseSensitive := false, ForceGroupBy := false }
    FromName := "FactSales"
    Selects :=
      [ { Column := "FranchiseName", Table := "DimFranchise", Alias := "", Aggregate := "" },
        { Column := "StoreName", Table := "DimStore", Alias := "", Aggregate := "" },
        { Column := "Quantity", Table := "FactSales", Alias := "Products Sold",
          Aggregate := "sum" } ] }

/-! ## Sequences of registrations -/

/-- The calls `db.AddTable(t)` for the tables of a list, in order; the result
is the database after the last call, `none` if a call panics. -/
def Database.AddTables (db : Database) : List Table → Option Database
  | [] => some db
  | t :: ts =>
    match db.AddTable t with
    | none => none
    | some (_, db1) => Database.AddTables db1 ts

/-- The calls `table.AddFKey(fk)` for the keys of a list, in order; the
result is the table after the last call, `none` if a call panics. -/
def Table.AddFKeys (table : Table) : List ForeignKey → Option Table
  | [] => some table
  | fk :: fks =>
    match table.AddFKey fk with
    | none => none
    | some (_, table1) => Table.AddFKeys table1 fks

/-- A database literal whose container was made with an equality that never
holds: `Database{Name: "x", Tables: set.MakeSet(neverEqual)}`. -/
def NeverEqual.db : Database :=
  { Name := "x", Tables := set.MakeSet fun _ _ => some false }

/-- A table literal made without `MakeTable`: `Table{Name: "T", PK: "id"}`;
its `FKeys` is the zero `Set`, whose `eq` is nil. -/
def LiteralTable.table : Table :=
  { Name := "T", PK := "id", FKeys := GoZero.zero }

/-! ## Sequences of appends and separated loops -/

/-- The calls `gen.AddSelect(s)` for the Selects of a list, in order. -/
def SQLGenerator.AddSelects (gen : SQLGenerator) : List Select → SQLGenerator
  | [] => gen
  | s :: rest => SQLGenerator.AddSelects (gen.AddSelect s) rest

/-- The loop `for _, x := range xs { sep.Write(b); b.WriteString(x) }`: each
round invokes the joiner and then writes the item, as the loops of
`(*SQLGenerator).Write` and `GroupByWriter.Write` do with their entries. -/
def LoopSeparatorJoiner.JoinLoop :
    List String → LoopSeparatorJoiner → Builder → LoopSeparatorJoiner × Builder
  | [], sep, b => (sep, b)
  | x :: xs, sep, b =>
    let (sep1, b1) := sep.Write b
    LoopSeparatorJoiner.JoinLoop xs sep1 (b1.WriteString x)

/-! ## Scenarios for lookups that fail and for the join section -/

/-- A database holding only table `F`, whose foreign key `k` targets the
table `Missing` that is not registered. -/
def UnresolvedTarget.db : Database :=
  { Name := "StarDB"
    Tables :=
      { items :=
          [ { Name := "F", PK := "id"
              FKeys := { items := [{ Key := "k", Target := "Missing" }], eq := FKeyEqual } } ]
        eq := TableEqual } }

/-- A generator on `UnresolvedTarget.db` with base table `F` and no Select. -/
def UnresolvedTarget.gen : SQLGenerator :=
  { DB := some UnresolvedTarget.db
    Options := { CaseSensitive := false, ForceGroupBy := false }
    FromName := "F"
    Selects := [] }

/-- The generator of `TestOneDimension` with other Selects and options: one
Select of a table `Other` that is no foreign-key target, and `ForceGroupBy`. -/
def UnrelatedSelect.gen : SQLGenerator :=
  { DB := some OneDimension.db
    Options := { CaseSensitive := false, ForceGroupBy := true }
    FromName := "FactSales"
    Selects := [{ Column := "x", Table := "Other", Alias := "", Aggregate := "" }] }

/-- The database of `TestOneDimension` with the one Select
`sum(FactSales.Quantity)`: every Select is an aggregate. -/
def AllAggregates.gen : SQLGenerator :=
  { DB := some OneDimension.db
    Options := { CaseSensitive := false, ForceGroupBy := false }
    FromName := "FactSales"
    Selects := [{ Column := "Quantity", Table := "FactSales", Alias := "", Aggregate := "sum" }] }

/-! ## Slices that share a backing array

`Set.items` is a Go slice. A copy of a `Set` (made whenever a `Table` or a
`Database` is copied: `AddTable` stores a copy, `Find` and `GetTable` return
one) has its own length but the same backing array. The list model of package
`set` above gives what the receiver of a call shows; the model below keeps
the backing arrays in a heap, so that it also gives what the other copies
show after the call. The containers of this second model carry the source's
names inside the namespace `shared`. -/

namespace shared

/-- Go slice header: the backing array (its address in the heap), the length
and the capacity. -/
structure SliceHeader where
  ptr : Nat
  len : Nat
  cap : Nat
deriving DecidableEq, Repr

/-- The backing arrays allocated so far, by address. Of each array the cells
written so far are kept; the cells after them are never read by a slice of
this program. -/
abbrev Heap (T : Type) := List (List T)

/-- The nil slice. -/
def SliceHeader.nil : SliceHeader :=
  { ptr := 0, len := 0, cap := 0 }

/-- The elements a slice shows, `s[0:len(s)]`. -/
def SliceHeader.elems {T : Type} (s : SliceHeader) (h : Heap T) : List T :=
  (h.getD s.ptr []).take s.len

/-- Go builtin `append(s, item)`: when the capacity allows, the item is
written into the backing array at index `len(s)` and the array is re-used;
otherwise a new array with the elements and the item is allocated, of the
capacity `grow cap(s) (len(s) + 1)` that the runtime chooses. The result is
the new slice header and the heap after the call. -/
def SliceHeader.append {T : Type} (grow : Nat → Nat → Nat) (s : SliceHeader) (item : T)
    (h : Heap T) : SliceHeader × Heap T :=
  if s.len < s.cap then
    let cells := h.getD s.ptr []
    ({ s with len := s.len + 1 },
      h.set s.ptr (cells.take s.len ++ [item] ++ cells.drop (s.len + 1)))
  else
    ({ ptr := h.length, len := s.len + 1, cap := grow s.cap (s.len + 1) },
      h ++ [s.elems h ++ [item]])

/-- Capacity that `runtime.growslice` of the Go compiler gives when one
element is appended to a full slice of capacity below 256, for the 32-byte
`ForeignKey` and the 64-byte `Table` (their sizes are malloc size classes, so
nothing is rounded up): twice the old capacity, or the new length if that is
more. -/
def growslice (oldCap : Nat) (newLen : Nat) : Nat :=
  if newLen > oldCap + oldCap then newLen else oldCap + oldCap

/-- A slice header is valid in a heap when the cells it shows have been
written, and its array exists if it has room left. Every header that
`append` returns is valid, and so is the nil slice. -/
def SliceHeader.Valid {T : Type} (s : SliceHeader) (h : Heap T) : Prop :=
  s.len ≤ (h.getD s.ptr []).length ∧ (s.len < s.cap → s.ptr < h.length)

/-- Go struct `Set[T]`, its `items` as a slice header. -/
structure Set (T : Type) where
  items : SliceHeader
  eq : set.FnEqual T

/-- What the set shows in a heap, as a set of the list model. -/
def Set.view {T : Type} (s : Set T) (h : Heap T) : set.Set T :=
  { items := s.items.elems h, eq := s.eq }

/-- Go `MakeSet`: `items` is the nil slice. -/
def MakeSet {T : Type} (eq : set.FnEqual T) : Set T :=
  { items := SliceHeader.nil, eq := eq }

/-- Go `(*Set).Add`: the search reads the elements the receiver shows; the
`append` writes into the heap. -/
def Set.Add {T : Type} (grow : Nat → Nat → Nat) (s : Set T) (item : T) (h : Heap T) :
    Option (Bool × Set T × Heap T) :=
  match (s.view h).Index item with
  | none => none
  | some index =>
    if index = -1 then
      let (items1, h1) := s.items.append grow item h
      some (true, { s with items := items1 }, h1)
    else
      some (false, s, h)

/-- Go struct `Table`. -/
structure Table where
  Name : String
  PK : String
  FKeys : Set ForeignKey

/-- Go struct `Database`. -/
structure Database where
  Name : String
  Tables : Set Table

instance : GoZero Table :=
  ⟨{ Name := "", PK := "", FKeys := { items := SliceHeader.nil, eq := set.nilFnEqual _ } }⟩

/-- The two heaps of the schema model: the arrays of foreign keys and the
arrays of tables. -/
structure Memory where
  fkeys : Heap ForeignKey
  tables : Heap Table

/-- Go `TableEqual`. -/
def TableEqual : set.FnEqual Table :=
  fun table1 table2 => some (table1.Name == table2.Name)

/-- Go `MakeDatabase`. -/
def MakeDatabase (name : String) : Database :=
  { Name := name, Tables := MakeSet TableEqual }

/-- Go `MakeTable`. -/
def MakeTable (name : String) (pk : String) : Table :=
  { Name := name, PK := pk, FKeys := MakeSet FKeyEqual }

/-- Go `(*Database).AddTable`: the table is stored by value, its `FKeys`
slice header included. -/
def Database.AddTable (grow : Nat → Nat → Nat) (db : Database) (t : Table) (m : Memory) :
    Option (Bool × Database × Memory) :=
  match db.Tables.Add grow t m.tables with
  | none => none
  | some (ok, tables, h) => some (ok, { db with Tables := tables }, { m with tables := h })

/-- Go `(*Database).GetTable`: the result is a copy of the stored table. -/
def Database.GetTable (db : Database) (name : String) (m : Memory) : Option Table :=
  match (db.Tables.view m.tables).Find (fun t => some (t.Name == name)) with
  | none => none
  | some (result, _) => some result

/-- Go `(*Table).AddFKey`. -/
def Table.AddFKey (grow : Nat → Nat → Nat) (table : Table) (fk : ForeignKey) (m : Memory) :
    Option (Bool × Table × Memory) :=
  match table.FKeys.Add grow fk m.fkeys with
  | none => none
  | some (ok, fkeys, h) => some (ok, { table with FKeys := fkeys }, { m with fkeys := h })

/-- The calls `table.AddFKey(fk)` for the keys of a list, in order, with no
other call in between; the result is the table and the memory after the last
call, `none` if a call panics. -/
def Table.AddFKeys (grow : Nat → Nat → Nat) (table : Table) :
    List ForeignKey → Memory → Option (Table × Memory)
  | [], m => some (table, m)
  | fk :: fks, m =>
    match table.AddFKey grow fk m with
    | none => none
    | some (_, table1, m1) => Table.AddFKeys grow table1 fks m1

/-- The keys of the foreign keys a table shows. -/
def Table.keys (table : Table) (m : Memory) : List String :=
  (table.FKeys.items.elems m.fkeys).map ForeignKey.Key

/-- The program
`s := MakeTable("S", "id")`; `s.AddFKey` of `a`, `b`, `c`, `d`, `e`;
`db.AddTable(s)`; `s.AddFKey` of `f` and of `g`; `got := db.GetTable("S")`;
`got.AddFKey(ForeignKey{"g", "Y"})`.
The result is what the last call returned, the keys `got` shows and the keys
`s` shows at the end. -/
def SharedArray.run : Option (Bool × List String × List String) := do
  let m : Memory := { fkeys := [], tables := [] }
  let db := MakeDatabase "StarDB"
  let s := MakeTable "S" "id"
  let (_, s, m) ← s.AddFKey growslice { Key := "a", Target := "X" } m
  let (_, s, m) ← s.AddFKey growslice { Key := "b", Target := "X" } m
  let (_, s, m) ← s.AddFKey growslice { Key := "c", Target := "X" } m
  let (_, s, m) ← s.AddFKey growslice { Key := "d", Target := "X" } m
  let (_, s, m) ← s.AddFKey growslice { Key := "e", Target := "X" } m
  let (_, db, m) ← db.AddTable growslice s m
  let (_, s, m) ← s.AddFKey growslice { Key := "f", Target := "X" } m
  let (_, s, m) ← s.AddFKey growslice { Key := "g", Target := "X" } m
  let got ← db.GetTable "S" m
  let (ok, got, m) ← got.AddFKey growslice { Key := "g", Target := "Y" } m
  pure (ok, got.keys m, s.keys m)

/-- The same calls on `s` alone, with the slice header `s` has after each. -/
def SharedArray.headers : Option (List SliceHeader) := do
  let m : Memory := { fkeys := [], tables := [] }
  let s0 := MakeTable "S" "id"
  let (_, s1, m) ← s0.AddFKey growslice { Key := "a", Target := "X" } m
  let (_, s2, m) ← s1.AddFKey growslice { Key := "b", Target := "X" } m
  let (_, s3, m) ← s2.AddFKey growslice { Key := "c", Target := "X" } m
  let (_, s4, m) ← s3.AddFKey growslice { Key := "d", Target := "X" } m
  let (_, s5, m) ← s4.AddFKey growslice { Key := "e", Target := "X" } m
  let (_, s6, m) ← s5.AddFKey growslice { Key := "f", Target := "X" } m
  let (_, s7, _) ← s6.AddFKey growslice { Key := "g", Target := "X" } m
  pure [s1.FKeys.items, s2.FKeys.items, s3.FKeys.items, s4.FKeys.items, s5.FKeys.items,
    s6.FKeys.items, s7.FKeys.items]

end shared

/-! ## Basic facts about the emitters -/

theorem Builder_WriteString_eq (b : Builder) (s : String) : b.WriteString s = b ++ s := rfl

theorem TextWriter_Write_eq (w : TextWriter) (b : Builder) : w.Write b = b ++ w.Text := rfl

/-- What `WriteSurrounded` appends around a text, for the quote wrapper. -/
theorem WriteSurrounded_quote (b : Builder) (q : Bool) (t : String) :
    WriteSurrounded b (QuoteSurroundWriter q) (TextWriter.mk t).Write
      = b ++ ((if q then "\"" else "") ++ t ++ (if q then "\"" else "")) := by
  cases q <;>
    simp [WriteSurrounded, QuoteSurroundWriter, SurroundWriter.WriteOpen,
      SurroundWriter.WriteClose, TextWriter_Write_eq, Builder_WriteString_eq,
      String.append_assoc]

/-- The identifier emitter appends a text that does not depend on the buffer. -/
theorem IdentifierWriter_Write_eq (iw : IdentifierWriter) (b : Builder) :
    iw.Write b = b ++
      ((if iw.Namespace = "" then ""
        else (if iw.Quote then "\"" else "") ++ iw.Namespace
          ++ (if iw.Quote then "\"" else "") ++ ".")
      ++ ((if iw.Quote then "\"" else "") ++ iw.Identifier
          ++ (if iw.Quote then "\"" else ""))) := by
  unfold IdentifierWriter.Write
  by_cases h : iw.Namespace = ""
  · simp [h, WriteSurrounded_quote]
  · simp [h, WriteSurrounded_quote, Builder_WriteString_eq, String.append_assoc]

theorem identString_eq (quote : Bool) (ns ident : String) :
    identString quote ns ident =
      (if ns = "" then ""
        else (if quote then "\"" else "") ++ ns ++ (if quote then "\"" else "") ++ ".")
      ++ ((if quote then "\"" else "") ++ ident ++ (if quote then "\"" else "")) := by
  simp [identString, WriteString, IdentifierWriter_Write_eq]

theorem IdentifierWriter_Write_append (iw : IdentifierWriter) (b : Builder) :
    iw.Write b = b ++ identString iw.Quote iw.Namespace iw.Identifier := by
  rw [IdentifierWriter_Write_eq, identString_eq]

/-- The select emitter appends a text that does not depend on the buffer. -/
theorem SelectWriter_Write_eq (s : Select) (o : GeneratorOptions) (b : Builder) :
    SelectWriter.Write { Select := s, GeneratorOptions := o } b = b ++
      ((if s.Aggregate = "" then identString o.CaseSensitive s.Table s.Column
        else s.Aggregate ++ "(" ++ identString o.CaseSensitive s.Table s.Column ++ ")")
      ++ (if s.Alias = "" then "" else " as \"" ++ s.Alias ++ "\"")) := by
  unfold SelectWriter.Write
  rw [show (" as \"" : String) = " as " ++ "\"" from rfl]
  by_cases ha : s.Aggregate = "" <;> by_cases hl : s.Alias = "" <;>
    simp [ha, hl, WriteSurrounded, AggregateSurroundWriter, SurroundWriter.WriteOpen,
      SurroundWriter.WriteClose, QuoteSurroundWriter, TextWriter_Write_eq,
      Builder_WriteString_eq, IdentifierWriter_Write_append, String.append_assoc,
      -String.reduceAppend]

theorem SelectWriter_Write_append (s : Select) (o : GeneratorOptions) (b : Builder) :
    SelectWriter.Write { Select := s, GeneratorOptions := o } b = b ++ selectString o s := by
  have h := SelectWriter_Write_eq s o ""
  rw [SelectWriter_Write_eq s o b]
  simp only [selectString, WriteString]
  rw [h, String.empty_append]

theorem IndentWriter_Write_one (b : Builder) :
    IndentWriter.Write { Level := 1 } b = b ++ "    " := by
  rfl

theorem WriteAll_two (b : Builder) (w1 w2 : Writer) :
    WriteAll (m := Id) b [w1, w2] = w2 (w1 b) := by
  rfl

theorem intercalate_go_append (sep : String) (l : List String) (b a : String) :
    String.intercalate.go (b ++ a) sep l = b ++ String.intercalate.go a sep l := by
  induction l generalizing a with
  | nil => simp [String.intercalate.go]
  | cons x xs ih =>
    simp only [String.intercalate.go]
    rw [← ih]
    simp [String.append_assoc]

/-- The separator once it has been used: it writes its text every time. -/
theorem LoopSeparatorJoiner_Write_later (w : Writer) (b : Builder) :
    LoopSeparatorJoiner.Write { First := false, Join := w } b
      = ({ First := false, Join := w }, w b) := by
  simp [LoopSeparatorJoiner.Write]

/-- The fresh separator: it writes nothing and becomes used. -/
theorem LoopSeparatorJoiner_Write_first (w : Writer) (b : Builder) :
    LoopSeparatorJoiner.Write { First := true, Join := w } b
      = ({ First := false, Join := w }, b) := by
  simp [LoopSeparatorJoiner.Write]

/-- The loop of `(*SQLGenerator).Write` once the separator has been used. -/
theorem SQLGenerator_WriteLoop_later (opts : GeneratorOptions) (sep : String)
    (sels : List Select) (b : Builder) :
    (SQLGenerator.WriteLoop opts { Level := 1 } sels
        { First := false, Join := (TextWriter.mk sep).Write } b).2
      = String.intercalate.go b sep (sels.map fun s => "    " ++ selectString opts s) := by
  induction sels generalizing b with
  | nil => simp [SQLGenerator.WriteLoop, String.intercalate.go]
  | cons s rest ih =>
    simp only [SQLGenerator.WriteLoop, LoopSeparatorJoiner_Write_later, List.map_cons,
      String.intercalate.go]
    rw [ih]
    simp [TextWriter_Write_eq, IndentWriter_Write_one, SelectWriter_Write_append,
      String.append_assoc]

/-- The loop of `(*SQLGenerator).Write` from the fresh separator. -/
theorem SQLGenerator_WriteLoop_first (opts : GeneratorOptions) (sep : String)
    (sels : List Select) (b : Builder) :
    (SQLGenerator.WriteLoop opts { Level := 1 } sels (MakeLoopSeparatorJoiner sep) b).2
      = b ++ sep.intercalate (sels.map fun s => "    " ++ selectString opts s) := by
  cases sels with
  | nil => simp [SQLGenerator.WriteLoop, String.intercalate]
  | cons s rest =>
    simp only [SQLGenerator.WriteLoop, MakeLoopSeparatorJoiner, MakeLoopSeparatorJoinerWith,
      LoopSeparatorJoiner_Write_first, List.map_cons, String.intercalate]
    rw [SQLGenerator_WriteLoop_later, ← intercalate_go_append]
    simp [IndentWriter_Write_one, SelectWriter_Write_append, String.append_assoc]

/-! ## Group-by emitter -/

theorem GroupByWriter_ShouldWriteLoop_iff (sels : List Select) :
    GroupByWriter.ShouldWriteLoop sels = true ↔ ∃ s ∈ sels, s.Aggregate ≠ "" := by
  induction sels with
  | nil => simp [GroupByWriter.ShouldWriteLoop]
  | cons s rest ih =>
    by_cases h : s.Aggregate = "" <;> simp [GroupByWriter.ShouldWriteLoop, h, ih]

theorem GroupByWriter_ShouldWrite_iff (gen : SQLGenerator) :
    GroupByWriter.ShouldWrite { SQLGenerator := gen } = true ↔
      (gen.Options.ForceGroupBy = true ∨ ∃ s ∈ gen.Selects, s.Aggregate ≠ "") := by
  unfold GroupByWriter.ShouldWrite
  by_cases h : gen.Options.ForceGroupBy = true
  · simp [h]
  · simp [h, GroupByWriter_ShouldWriteLoop_iff]

/-- The loop of `GroupByWriter.Write` once the separator has been used. -/
theorem GroupByWriter_WriteLoop_later (opts : GeneratorOptions) (sep : String)
    (sels : List Select) (b : Builder) :
    (GroupByWriter.WriteLoop opts { Level := 1 } sels
        { First := false, Join := (TextWriter.mk sep).Write } b).2
      = String.intercalate.go b sep
          ((sels.filter fun s => decide (s.Aggregate = "")).map
            fun s => "    " ++ identString opts.CaseSensitive s.Table s.Column) := by
  induction sels generalizing b with
  | nil => simp [GroupByWriter.WriteLoop, String.intercalate.go]
  | cons s rest ih =>
    by_cases h : s.Aggregate = ""
    · simp only [GroupByWriter.WriteLoop, h, ne_eq, not_true_eq_false, if_false,
        LoopSeparatorJoiner_Write_later, decide_True, List.filter_cons_of_pos, List.map_cons,
        String.intercalate.go, WriteAll_two]
      rw [ih]
      simp [TextWriter_Write_eq, IndentWriter_Write_one, IdentifierWriter_Write_append,
        String.append_assoc]
    · simp [GroupByWriter.WriteLoop, h, ih]

/-- The loop of `GroupByWriter.Write` from the fresh separator. -/
theorem GroupByWriter_WriteLoop_first (opts : GeneratorOptions) (sep : String)
    (sels : List Select) (b : Builder) :
    (GroupByWriter.WriteLoop opts { Level := 1 } sels (MakeLoopSeparatorJoiner sep) b).2
      = b ++ sep.intercalate
          ((sels.filter fun s => decide (s.Aggregate = "")).map
            fun s => "    " ++ identString opts.CaseSensitive s.Table s.Column) := by
  induction sels with
  | nil => simp [GroupByWriter.WriteLoop, String.intercalate]
  | cons s rest ih =>
    by_cases h : s.Aggregate = ""
    · simp only [GroupByWriter.WriteLoop, h, ne_eq, not_true_eq_false, if_false,
        MakeLoopSeparatorJoiner, MakeLoopSeparatorJoinerWith, LoopSeparatorJoiner_Write_first,
        decide_True, List.filter_cons_of_pos, List.map_cons, String.intercalate, WriteAll_two]
      rw [GroupByWriter_WriteLoop_later, ← intercalate_go_append]
      simp [IndentWriter_Write_one, IdentifierWriter_Write_append, String.append_assoc]
    · simp [GroupByWriter.WriteLoop, h, ih]

/-- The group-by emitter appends a text that does not depend on the buffer. -/
theorem GroupByWriter_Write_eq (gen : SQLGenerator) (b : Builder) :
    GroupByWriter.Write { SQLGenerator := gen } b = b ++
      (if gen.Options.ForceGroupBy = true ∨ ∃ s ∈ gen.Selects, s.Aggregate ≠ "" then
        "\ngroup by\n" ++ ",\n".intercalate
          ((gen.Selects.filter fun s => decide (s.Aggregate = "")).map
            fun s => "    " ++ identString gen.Options.CaseSensitive s.Table s.Column)
      else "") := by
  unfold GroupByWriter.Write
  by_cases h : GroupByWriter.ShouldWrite { SQLGenerator := gen } = true
  · rw [if_pos ((GroupByWriter_ShouldWrite_iff gen).1 h)]
    simp [h, GroupByWriter_WriteLoop_first, Builder_WriteString_eq, String.append_assoc]
  · rw [if_neg (fun hc => h ((GroupByWriter_ShouldWrite_iff gen).2 hc))]
    simp [h]

theorem GroupByWriter_Write_append (gen : SQLGenerator) (b : Builder) :
    GroupByWriter.Write { SQLGenerator := gen } b = b ++ groupByString gen := by
  simp only [groupByString, WriteString]
  rw [GroupByWriter_Write_eq gen b, GroupByWriter_Write_eq gen "", String.empty_append]

/-! ## Lookups in the container -/

/-- With a matcher that never panics the search loop returns the position of
the first match, counted from the start index, or -1. -/
theorem IndexWithFrom_total {T : Type} (p : T → Bool) (l : List T) (i : Int) :
    set.IndexWithFrom (fun x => some (p x)) l i
      = some (if l.findIdx p < l.length then i + (l.findIdx p : Int) else -1) := by
  induction l generalizing i with
  | nil => simp [set.IndexWithFrom]
  | cons x xs ih =>
    cases hp : p x with
    | true => simp [set.IndexWithFrom, hp, List.findIdx_cons]
    | false =>
      simp only [set.IndexWithFrom, hp, ih, List.findIdx_cons, cond_false, List.length_cons,
        Nat.add_lt_add_iff_right]
      by_cases hlt : List.findIdx p xs < xs.length
      · simp only [hlt, if_true, Option.some.injEq]
        push_cast
        ring
      · simp [hlt]

theorem getElem?_findIdx {T : Type} (p : T → Bool) (l : List T) :
    l[l.findIdx p]? = l.find? p := by
  induction l with
  | nil => simp
  | cons x xs ih =>
    cases hp : p x with
    | true => simp [List.findIdx_cons, hp]
    | false => simp [List.findIdx_cons, hp, ih]

theorem findIdx_lt_iff_find? {T : Type} (p : T → Bool) (l : List T) :
    l.findIdx p < l.length ↔ (l.find? p).isSome = true := by
  rw [← getElem?_findIdx]
  constructor
  · intro h
    simp [h]
  · intro h
    by_contra hc
    rw [List.getElem?_eq_none (Nat.le_of_not_lt hc)] at h
    simp at h

/-- With a matcher that never panics `Find` never panics: it returns the
first matching item in insertion order, or the zero value. -/
theorem Set_Find_total {T : Type} [GoZero T] (s : set.Set T) (p : T → Bool) :
    s.Find (fun x => some (p x))
      = some (match s.items.find? p with
              | some x => (x, true)
              | none => (GoZero.zero, false)) := by
  unfold set.Set.Find set.Set.IndexWith
  rw [IndexWithFrom_total]
  by_cases hlt : List.findIdx p s.items < s.items.length
  · have hne : ¬ ((0 : Int) + (List.findIdx p s.items : Int) = -1) := by omega
    have hsome := (findIdx_lt_iff_find? p s.items).1 hlt
    simp only [hlt, if_true, hne, if_false, zero_add, Int.toNat_ofNat, List.get?_eq_getElem?,
      getElem?_findIdx]
    cases hf : List.find? p s.items with
    | none => simp [hf] at hsome
    | some x => rfl
  · have hnone : List.find? p s.items = none := by
      cases hf : List.find? p s.items with
      | none => rfl
      | some x =>
        exfalso
        exact hlt ((findIdx_lt_iff_find? p s.items).2 (by simp [hf]))
    simp [hlt, hnone]

/-- The table lookup never panics: it returns the first registered table of
that name, or the zero table. -/
theorem Database_GetTable_eq (db : Database) (name : String) :
    db.GetTable name
      = some ((db.Tables.items.find? fun t => t.Name == name).getD GoZero.zero) := by
  unfold Database.GetTable TableByName
  rw [Set_Find_total]
  cases List.find? (fun t => t.Name == name) db.Tables.items <;> rfl

theorem Database_GetTable_isSome (db : Database) (name : String) :
    (db.GetTable name).isSome = true := by
  rw [Database_GetTable_eq]
  rfl

/-- Looking up a name no registered table has gives the zero table. -/
theorem Database_GetTable_unregistered (db : Database) (name : String)
    (h : ∀ t ∈ db.Tables.items, t.Name ≠ name) :
    db.GetTable name = some GoZero.zero := by
  rw [Database_GetTable_eq]
  have : List.find? (fun t => t.Name == name) db.Tables.items = none := by
    rw [List.find?_eq_none]
    intro t ht
    simpa using h t ht
  rw [this]
  rfl

/-! ## Join emitter -/

theorem foldl_append_acc (l : List String) (acc : String) :
    List.foldl (fun r s => r ++ s) acc l = acc ++ List.foldl (fun r s => r ++ s) "" l := by
  induction l generalizing acc with
  | nil => simp
  | cons x xs ih =>
    simp only [List.foldl_cons]
    rw [ih (acc ++ x), ih ("" ++ x)]
    simp [String.append_assoc]

theorem String_join_nil : String.join [] = "" := rfl

theorem String_join_cons (a : String) (l : List String) :
    String.join (a :: l) = a ++ String.join l := by
  unfold String.join
  simp only [List.foldl_cons]
  rw [foldl_append_acc]
  simp

/-- A callback that always continues and appends a text per item makes
`Iter` append the texts of all items in order. -/
theorem IterFrom_append {T : Type} (fn : T → Builder → Option (Bool × Builder))
    (f : T → String) (hfn : ∀ item st, fn item st = some (true, st ++ f item))
    (l : List T) (b : Builder) :
    set.IterFrom fn l b = some (b ++ String.join (l.map f)) := by
  induction l generalizing b with
  | nil => simp [set.IterFrom, String_join_nil]
  | cons x xs ih =>
    simp [set.IterFrom, hfn, ih, String_join_cons, String.append_assoc]

theorem SQLJoin_Write_idents (i1 i2 i3 : IdentifierWriter) (b : Builder) :
    SQLJoin.Write { JoinTarget := i1.Write, OnCond := i2.Write, Equals := i3.Write } b
      = b ++ ("\njoin " ++ identString i1.Quote i1.Namespace i1.Identifier ++ " on "
          ++ identString i2.Quote i2.Namespace i2.Identifier ++ " = "
          ++ identString i3.Quote i3.Namespace i3.Identifier) := by
  rw [show ("\njoin " : String) = "\n" ++ "join " from rfl]
  simp [SQLJoin.Write, IdentifierWriter_Write_append, Builder_WriteString_eq,
    String.append_assoc, -String.reduceAppend]

/-- With a database attached the join emitter never panics and appends one
line per foreign key of the looked-up base table. -/
theorem JoinWriter_Write_eq (gen : SQLGenerator) (db : Database) (b : Builder)
    (hdb : gen.DB = some db) :
    JoinWriter.Write { SQLGenerator := gen } b = some (b ++ String.join
      (((db.GetTable gen.FromName).getD GoZero.zero).FKeys.items.map fun fk =>
        "\njoin " ++ identString gen.Options.CaseSensitive "" fk.Target ++ " on "
          ++ identString gen.Options.CaseSensitive fk.Target
              ((db.GetTable fk.Target).getD GoZero.zero).PK ++ " = "
          ++ identString gen.Options.CaseSensitive gen.FromName fk.Key)) := by
  unfold JoinWriter.Write JoinWriter.IterateJoins
  simp only [hdb]
  rw [Database_GetTable_eq db gen.FromName]
  simp only [Option.getD_some, set.Set.Iter]
  apply IterFrom_append
  intro fk st
  rw [Database_GetTable_eq db fk.Target]
  simp only [Option.getD_some, SQLJoin_Write_idents]

theorem JoinWriter_Write_nil (gen : SQLGenerator) (b : Builder) (hdb : gen.DB = none) :
    JoinWriter.Write { SQLGenerator := gen } b = none := by
  unfold JoinWriter.Write JoinWriter.IterateJoins
  simp only [hdb]

/-- The join emitter appends a text that does not depend on the buffer, or
panics whatever the buffer. -/
theorem JoinWriter_Write_append (gen : SQLGenerator) (b : Builder) :
    JoinWriter.Write { SQLGenerator := gen } b = (joinString gen).map fun j => b ++ j := by
  unfold joinString WriteString
  cases hdb : gen.DB with
  | none => simp [JoinWriter_Write_nil gen _ hdb]
  | some db => simp [JoinWriter_Write_eq gen db _ hdb]

/-- The text `(*SQLGenerator).Write` appends, in terms of its four parts. -/
theorem SQLGenerator_Write_eq (gen : SQLGenerator) (b : Builder) :
    gen.Write b = (joinString gen).map fun j =>
      gen.WriteSelectSection b ++ "\nfrom "
        ++ identString gen.Options.CaseSensitive "" gen.FromName ++ j ++ groupByString gen := by
  unfold SQLGenerator.Write SQLGenerator.WriteSelectSection
  simp only [WriteAll, JoinWriter_Write_append, IdentifierWriter_Write_append,
    GroupByWriter_Write_append, Builder_WriteString_eq]
  cases joinString gen <;> rfl

/-! ## Counting double quotes -/

theorem quoteCount_append (a b : String) :
    quoteCount (a ++ b) = quoteCount a + quoteCount b := by
  simp [quoteCount, String.data_append, List.count_append]

theorem quoteCount_empty : quoteCount "" = 0 := rfl

theorem sum_map_eq_zero {T : Type} (f : T → Nat) (l : List T) (h : ∀ x ∈ l, f x = 0) :
    (l.map f).sum = 0 := by
  induction l with
  | nil => rfl
  | cons x xs ih =>
    simp only [List.map_cons, List.sum_cons]
    rw [h x (List.mem_cons_self x xs), ih fun y hy => h y (List.mem_cons_of_mem x hy)]

theorem quoteCount_intercalate_go (sep : String) (hsep : quoteCount sep = 0)
    (l : List String) (acc : String) :
    quoteCount (String.intercalate.go acc sep l) = quoteCount acc + (l.map quoteCount).sum := by
  induction l generalizing acc with
  | nil => simp [String.intercalate.go]
  | cons x xs ih =>
    simp only [String.intercalate.go, ih, quoteCount_append, hsep, List.map_cons, List.sum_cons]
    omega

theorem quoteCount_intercalate (sep : String) (hsep : quoteCount sep = 0) (l : List String) :
    quoteCount (sep.intercalate l) = (l.map quoteCount).sum := by
  cases l with
  | nil => rfl
  | cons x xs =>
    simp only [String.intercalate, quoteCount_intercalate_go sep hsep, List.map_cons,
      List.sum_cons]

theorem quoteCount_join (l : List String) :
    quoteCount (String.join l) = (l.map quoteCount).sum := by
  induction l with
  | nil => rfl
  | cons x xs ih => simp [String_join_cons, quoteCount_append, ih]

/-- An unquoted identifier has the double quotes of its two names. -/
theorem quoteCount_identString (ns ident : String) :
    quoteCount (identString false ns ident) = quoteCount ns + quoteCount ident := by
  rw [identString_eq]
  have hdot : quoteCount "." = 0 := by decide
  by_cases h : ns = ""
  · simp [h, quoteCount_append, quoteCount_empty]
  · simp [h, quoteCount_append, quoteCount_empty, hdot]

theorem selectString_eq (o : GeneratorOptions) (s : Select) :
    selectString o s =
      (if s.Aggregate = "" then identString o.CaseSensitive s.Table s.Column
        else s.Aggregate ++ "(" ++ identString o.CaseSensitive s.Table s.Column ++ ")")
      ++ (if s.Alias = "" then "" else " as \"" ++ s.Alias ++ "\"") := by
  have h := SelectWriter_Write_eq s o ""
  rw [String.empty_append] at h
  exact h

/-- In case-insensitive mode a Select made of quote-free names carries the
two double quotes around its alias and no other. -/
theorem quoteCount_selectString (o : GeneratorOptions) (s : Select)
    (hcs : o.CaseSensitive = false)
    (hq : quoteCount s.Table = 0 ∧ quoteCount s.Column = 0 ∧ quoteCount s.Alias = 0
      ∧ quoteCount s.Aggregate = 0) :
    quoteCount (selectString o s) = if s.Alias = "" then 0 else 2 := by
  rw [selectString_eq, hcs]
  have h1 : quoteCount "(" = 0 := by decide
  have h2 : quoteCount ")" = 0 := by decide
  have h3 : quoteCount " as \"" = 1 := by decide
  have h4 : quoteCount "\"" = 1 := by decide
  obtain ⟨ht, hc, hl, ha⟩ := hq
  by_cases hagg : s.Aggregate = "" <;> by_cases hal : s.Alias = "" <;>
    simp [hagg, hal, quoteCount_append, quoteCount_identString, quoteCount_empty,
      ht, hc, hl, ha, h1, h2, h3, h4]

theorem quoteCount_select_entries (o : GeneratorOptions) (sels : List Select)
    (hcs : o.CaseSensitive = false)
    (hq : ∀ s ∈ sels, quoteCount s.Table = 0 ∧ quoteCount s.Column = 0
      ∧ quoteCount s.Alias = 0 ∧ quoteCount s.Aggregate = 0) :
    ((sels.map fun s => "    " ++ selectString o s).map quoteCount).sum
      = 2 * (sels.filter fun s => decide (s.Alias ≠ "")).length := by
  have hind : quoteCount "    " = 0 := by decide
  induction sels with
  | nil => rfl
  | cons s rest ih =>
    have hs := quoteCount_selectString o s hcs (hq s (List.mem_cons_self s rest))
    have hrest := ih fun x hx => hq x (List.mem_cons_of_mem s hx)
    simp only [List.map_cons, List.sum_cons, quoteCount_append, hind, hs, hrest]
    by_cases hal : s.Alias = ""
    · simp [hal]
    · simp [hal]
      omega

/-- The looked-up table is a registered one or the zero table. -/
theorem Database_GetTable_mem_or_zero (db : Database) (name : String) :
    (db.GetTable name).getD GoZero.zero ∈ db.Tables.items
      ∨ (db.GetTable name).getD GoZero.zero = GoZero.zero := by
  rw [Database_GetTable_eq, Option.getD_some]
  cases hf : List.find? (fun t => t.Name == name) db.Tables.items with
  | none => exact Or.inr rfl
  | some t => exact Or.inl (List.mem_of_find?_eq_some hf)

theorem SQLGenerator_WriteSelectSection_eq (gen : SQLGenerator) (b : Builder) :
    gen.WriteSelectSection b = b ++ "select\n" ++ ",\n".intercalate
        (gen.Selects.map fun s => "    " ++ selectString gen.Options s) := by
  unfold SQLGenerator.WriteSelectSection
  simp only [SQLGenerator_WriteLoop_first, Builder_WriteString_eq]

/-- In case-insensitive mode the group-by block of quote-free names has no
double quote. -/
theorem quoteCount_groupByString (gen : SQLGenerator)
    (hcs : gen.Options.CaseSensitive = false)
    (hq : ∀ s ∈ gen.Selects, quoteCount s.Table = 0 ∧ quoteCount s.Column = 0
      ∧ quoteCount s.Alias = 0 ∧ quoteCount s.Aggregate = 0) :
    quoteCount (groupByString gen) = 0 := by
  have hg := GroupByWriter_Write_eq gen ""
  rw [String.empty_append] at hg
  unfold groupByString WriteString
  rw [hg]
  have h1 : quoteCount "\ngroup by\n" = 0 := by decide
  have h2 : quoteCount ",\n" = 0 := by decide
  have h3 : quoteCount "    " = 0 := by decide
  split
  · rw [quoteCount_append, h1, quoteCount_intercalate _ h2, List.map_map, zero_add]
    apply sum_map_eq_zero
    intro s hs
    have hmem := (List.mem_filter.1 hs).1
    simp [quoteCount_append, h3, hcs, quoteCount_identString, (hq s hmem).1, (hq s hmem).2.1]
  · rfl

/-- In case-insensitive mode the join lines over a quote-free schema have no
double quote. -/
theorem quoteCount_join_lines (gen : SQLGenerator) (db : Database)
    (hfrom : quoteCount gen.FromName = 0)
    (hdbq : ∀ t ∈ db.Tables.items, quoteCount t.Name = 0 ∧ quoteCount t.PK = 0
      ∧ ∀ fk ∈ t.FKeys.items, quoteCount fk.Key = 0 ∧ quoteCount fk.Target = 0) :
    quoteCount (String.join
      (((db.GetTable gen.FromName).getD GoZero.zero).FKeys.items.map fun fk =>
        "\njoin " ++ identString false "" fk.Target ++ " on "
          ++ identString false fk.Target ((db.GetTable fk.Target).getD GoZero.zero).PK ++ " = "
          ++ identString false gen.FromName fk.Key)) = 0 := by
  have h1 : quoteCount "\njoin " = 0 := by decide
  have h2 : quoteCount " on " = 0 := by decide
  have h3 : quoteCount " = " = 0 := by decide
  rw [quoteCount_join, List.map_map]
  apply sum_map_eq_zero
  intro fk hfk
  have hfkq : quoteCount fk.Key = 0 ∧ quoteCount fk.Target = 0 := by
    rcases Database_GetTable_mem_or_zero db gen.FromName with hmem | hzero
    · exact (hdbq _ hmem).2.2 fk hfk
    · rw [hzero] at hfk
      exact absurd hfk (List.not_mem_nil fk)
  have hpk : quoteCount ((db.GetTable fk.Target).getD GoZero.zero).PK = 0 := by
    rcases Database_GetTable_mem_or_zero db fk.Target with hmem | hzero
    · exact (hdbq _ hmem).2.1
    · rw [hzero]
      rfl
  simp [quoteCount_append, quoteCount_identString, quoteCount_empty, h1, h2, h3, hfkq.1,
    hfkq.2, hpk, hfrom]

/-! ## Add-if-absent -/

/-- With an equality that never panics `Add` never panics: it refuses the
item when a stored item is equal to it and appends it otherwise. -/
theorem Set_Add_total {T : Type} (s : set.Set T) (e : T → T → Bool) (item : T)
    (heq : s.eq = fun a b => some (e a b)) :
    s.Add item = some (if s.items.any (fun x => e item x) = true then (false, s)
      else (true, { s with items := s.items ++ [item] })) := by
  unfold set.Set.Add set.Set.Index set.Set.IndexWith set.EqualityMatcher
  rw [heq]
  simp only []
  rw [IndexWithFrom_total (fun x => e item x)]
  by_cases hany : s.items.any (fun x => e item x) = true
  · have hlt : List.findIdx (fun x => e item x) s.items < s.items.length := by
      rw [List.any_eq_true] at hany
      exact List.findIdx_lt_length_of_exists hany
    have hne : ¬ ((0 : Int) + (List.findIdx (fun x => e item x) s.items : Int) = -1) := by
      omega
    simp only [hlt, if_true, hne, if_false, hany]
  · have hlt : ¬ List.findIdx (fun x => e item x) s.items < s.items.length := by
      intro hc
      apply hany
      rw [List.any_eq_true]
      exact List.findIdx_lt_length.1 hc
    simp [hlt, hany]

theorem Database_AddTable_total (db : Database) (t : Table) (heq : db.Tables.eq = TableEqual) :
    db.AddTable t = some
      (if db.Tables.items.any (fun x => t.Name == x.Name) = true then (false, db)
       else (true, { db with Tables := { db.Tables with items := db.Tables.items ++ [t] } })) := by
  unfold Database.AddTable
  rw [Set_Add_total db.Tables (fun a b => a.Name == b.Name) t heq]
  by_cases hany : db.Tables.items.any (fun x => t.Name == x.Name) = true
  · rw [if_pos hany, if_pos hany]
  · rw [if_neg hany, if_neg hany]

theorem Table_AddFKey_total (table : Table) (fk : ForeignKey)
    (heq : table.FKeys.eq = FKeyEqual) :
    table.AddFKey fk = some
      (if table.FKeys.items.any (fun x => fk.Key == x.Key) = true then (false, table)
       else (true,
          { table with FKeys := { table.FKeys with items := table.FKeys.items ++ [fk] } })) := by
  unfold Table.AddFKey
  rw [Set_Add_total table.FKeys (fun a b => a.Key == b.Key) fk heq]
  by_cases hany : table.FKeys.items.any (fun x => fk.Key == x.Key) = true
  · rw [if_pos hany, if_pos hany]
  · rw [if_neg hany, if_neg hany]

/-- One `AddTable` keeps the equality of the container and the distinctness
of the stored names. -/
theorem Database_AddTable_inv (db : Database) (t : Table) (heq : db.Tables.eq = TableEqual)
    (hnd : (db.Tables.items.map Table.Name).Nodup) :
    ∃ ok db1, db.AddTable t = some (ok, db1) ∧ db1.Tables.eq = TableEqual
      ∧ (db1.Tables.items.map Table.Name).Nodup := by
  rw [Database_AddTable_total db t heq]
  by_cases hany : db.Tables.items.any (fun x => t.Name == x.Name) = true
  · exact ⟨false, db, by rw [if_pos hany], heq, hnd⟩
  · refine ⟨true, { db with Tables := { db.Tables with items := db.Tables.items ++ [t] } },
      by rw [if_neg hany], heq, ?_⟩
    have hnot : t.Name ∉ db.Tables.items.map Table.Name := by
      intro hmem
      apply hany
      obtain ⟨x, hx, hname⟩ := List.mem_map.1 hmem
      rw [List.any_eq_true]
      exact ⟨x, hx, by simp [hname]⟩
    simp only [List.map_append, List.map_cons, List.map_nil]
    rw [List.nodup_append]
    exact ⟨hnd, List.nodup_singleton _, by simpa using hnot⟩

/-- One `AddFKey` keeps the equality of the container and the distinctness
of the stored keys. -/
theorem Table_AddFKey_inv (table : Table) (fk : ForeignKey)
    (heq : table.FKeys.eq = FKeyEqual)
    (hnd : (table.FKeys.items.map ForeignKey.Key).Nodup) :
    ∃ ok table1, table.AddFKey fk = some (ok, table1) ∧ table1.FKeys.eq = FKeyEqual
      ∧ (table1.FKeys.items.map ForeignKey.Key).Nodup := by
  rw [Table_AddFKey_total table fk heq]
  by_cases hany : table.FKeys.items.any (fun x => fk.Key == x.Key) = true
  · exact ⟨false, table, by rw [if_pos hany], heq, hnd⟩
  · refine ⟨true,
      { table with FKeys := { table.FKeys with items := table.FKeys.items ++ [fk] } },
      by rw [if_neg hany], heq, ?_⟩
    have hnot : fk.Key ∉ table.FKeys.items.map ForeignKey.Key := by
      intro hmem
      apply hany
      obtain ⟨x, hx, hname⟩ := List.mem_map.1 hmem
      rw [List.any_eq_true]
      exact ⟨x, hx, by simp [hname]⟩
    simp only [List.map_append, List.map_cons, List.map_nil]
    rw [List.nodup_append]
    exact ⟨hnd, List.nodup_singleton _, by simpa using hnot⟩

theorem Database_AddTables_inv (ts : List Table) (db : Database)
    (heq : db.Tables.eq = TableEqual) (hnd : (db.Tables.items.map Table.Name).Nodup) :
    ∃ db1, db.AddTables ts = some db1 ∧ db1.Tables.eq = TableEqual
      ∧ (db1.Tables.items.map Table.Name).Nodup := by
  induction ts generalizing db with
  | nil => exact ⟨db, rfl, heq, hnd⟩
  | cons t rest ih =>
    obtain ⟨ok, db1, hadd, heq1, hnd1⟩ := Database_AddTable_inv db t heq hnd
    obtain ⟨db2, hrest, heq2, hnd2⟩ := ih db1 heq1 hnd1
    exact ⟨db2, by simp only [Database.AddTables, hadd, hrest], heq2, hnd2⟩

theorem Table_AddFKeys_inv (fks : List ForeignKey) (table : Table)
    (heq : table.FKeys.eq = FKeyEqual)
    (hnd : (table.FKeys.items.map ForeignKey.Key).Nodup) :
    ∃ table1, table.AddFKeys fks = some table1 ∧ table1.FKeys.eq = FKeyEqual
      ∧ (table1.FKeys.items.map ForeignKey.Key).Nodup := by
  induction fks generalizing table with
  | nil => exact ⟨table, rfl, heq, hnd⟩
  | cons fk rest ih =>
    obtain ⟨ok, table1, hadd, heq1, hnd1⟩ := Table_AddFKey_inv table fk heq hnd
    obtain ⟨table2, hrest, heq2, hnd2⟩ := ih table1 heq1 hnd1
    exact ⟨table2, by simp only [Table.AddFKeys, hadd, hrest], heq2, hnd2⟩

/-! ## The claims -/

set_option maxRecDepth 100000

/-- C1 (counterexample). The base table is named by the empty string, has no
foreign key, and the one Select is (T, C) = ("", "C") with no aggregate, no
alias and default options: the statement is `select\n    C\nfrom `, not
`select\n    .C\nfrom ` as the formula `T.C` gives, because the identifier
emitter leaves out an empty namespace together with its dot. -/
theorem C1_counterexample :
    (EmptyBaseName.gen.bind fun g => WriteString g.Write) = some "select\n    C\nfrom "
    ∧ (EmptyBaseName.gen.bind fun g => WriteString g.Write)
        ≠ some ("select\n    " ++ "" ++ "." ++ "C" ++ "\nfrom " ++ "") := by
  decide

/-- C1 (amended). For every generator state, `WriteString(gen)` is the
concatenation, in this order, of the SELECT section, `"\nfrom "`, `FromName`
as an identifier without namespace quoted iff `CaseSensitive`, the output of
`JoinWriter{gen}` and the output of `GroupByWriter{gen}`; it panics exactly
when `JoinWriter{gen}` does (nil `DB`). The SELECT section starts with
`"select\n"`. For a base table with a non-empty name `T` and no foreign key,
one Select (T, C) without aggregate and alias and default options, the
output is `"select\n    T.C\nfrom T"`; `TestSingleTable` is an instance. -/
theorem C1_write_order :
    (∀ gen : SQLGenerator,
      WriteString gen.Write = (joinString gen).map fun j =>
        gen.WriteSelectSection "" ++ "\nfrom "
          ++ identString gen.Options.CaseSensitive "" gen.FromName ++ j ++ groupByString gen)
    ∧ (∀ (gen : SQLGenerator) (b : Builder),
        ∃ rest, gen.WriteSelectSection b = b ++ "select\n" ++ rest)
    ∧ (∀ (db : Database) (T C : String), T ≠ "" →
        ((db.GetTable T).getD GoZero.zero).FKeys.items = [] →
        WriteString (SQLGenerator.Write
            { DB := some db, Options := GoZero.zero, FromName := T,
              Selects := [{ Column := C, Table := T, Alias := "", Aggregate := "" }] })
          = some ("select\n    " ++ T ++ "." ++ C ++ "\nfrom " ++ T))
    ∧ (TestSingleTable.gen.bind fun g => WriteString g.Write)
        = some "select\n    DimFranchise.FranchiseName\nfrom DimFranchise" := by
  refine ⟨fun gen => ?_, fun gen b => ?_, fun db T C hT hfk => ?_, by decide⟩
  · simp only [WriteString]
    exact SQLGenerator_Write_eq gen ""
  · refine ⟨",\n".intercalate
      (gen.Selects.map fun s => "    " ++ selectString gen.Options s), ?_⟩
    unfold SQLGenerator.WriteSelectSection
    simp only [SQLGenerator_WriteLoop_first, Builder_WriteString_eq]
  · simp only [WriteString]
    rw [SQLGenerator_Write_eq]
    have hj : joinString
        { DB := some db, Options := GoZero.zero, FromName := T,
          Selects := [{ Column := C, Table := T, Alias := "", Aggregate := "" }] }
        = some "" := by
      unfold joinString WriteString
      rw [JoinWriter_Write_eq _ db _ rfl]
      simp [hfk, String_join_nil]
    rw [hj]
    simp only [Option.map_some', SQLGenerator.WriteSelectSection,
      SQLGenerator_WriteLoop_first, Builder_WriteString_eq, groupByString, WriteString,
      GroupByWriter_Write_eq, identString_eq, selectString, SelectWriter_Write_eq]
    rw [show ("select\n    " : String) = "select\n" ++ "    " from rfl]
    simp [GoZero.zero, hT, String.intercalate, String.intercalate.go, String.append_assoc,
      -String.reduceAppend]

/-- C2. For every generator (every list of Selects and every options value)
the SELECT section written by `(*SQLGenerator).Write` is `"select\n"` followed
by the renderings of the Selects in append order, each prefixed by four
spaces, joined by `",\n"`; this text opens the output of `Write`. There is
one entry per Select; with no Select the section is `"select\n"` alone, with
two it is `entry1 ++ ",\n" ++ entry2` after `"select\n"`. -/
theorem C2_select_section (gen : SQLGenerator) (b : Builder) :
    gen.WriteSelectSection b = b ++ "select\n" ++ ",\n".intercalate
        (gen.Selects.map fun s => "    " ++ selectString gen.Options s)
    ∧ gen.Write b = ((joinString gen).map fun j =>
        b ++ "select\n" ++ ",\n".intercalate
            (gen.Selects.map fun s => "    " ++ selectString gen.Options s)
          ++ "\nfrom " ++ identString gen.Options.CaseSensitive "" gen.FromName
          ++ j ++ groupByString gen)
    ∧ (gen.Selects.map fun s => "    " ++ selectString gen.Options s).length
        = gen.Selects.length
    ∧ (gen.Selects = [] → gen.WriteSelectSection b = b ++ "select\n")
    ∧ (∀ s1 s2, gen.Selects = [s1, s2] →
        gen.WriteSelectSection b = b ++ "select\n"
          ++ ("    " ++ selectString gen.Options s1) ++ ",\n"
          ++ ("    " ++ selectString gen.Options s2)) := by
  have h1 : gen.WriteSelectSection b = b ++ "select\n" ++ ",\n".intercalate
        (gen.Selects.map fun s => "    " ++ selectString gen.Options s) := by
    unfold SQLGenerator.WriteSelectSection
    simp only [SQLGenerator_WriteLoop_first, Builder_WriteString_eq]
  refine ⟨h1, ?_, by simp, fun h0 => ?_, fun s1 s2 h2 => ?_⟩
  · rw [SQLGenerator_Write_eq, h1]
  · rw [h1, h0]
    simp [String.intercalate]
  · rw [h1, h2]
    simp [String.intercalate, String.intercalate.go, String.append_assoc]

/-- C3. For every Select `s`, options `o` and buffer, `SelectWriter{s, o}`
writes `I` if `s.Aggregate` is empty and `s.Aggregate + "(" + I + ")"`
otherwise, `I` being the identifier rendering of namespace `s.Table` and
identifier `s.Column` quoted iff `o.CaseSensitive`; then `" as \"" + s.Alias
+ "\""` iff `s.Alias` is non-empty, whatever `o.CaseSensitive` is. The
Select `sum` of `FactSales.Quantity` aliased `Products Sold` renders, with
default options, as `sum(FactSales.Quantity) as "Products Sold"`. -/
theorem C3_select_writer (s : Select) (o : GeneratorOptions) (b : Builder) :
    SelectWriter.Write { Select := s, GeneratorOptions := o } b = b ++
      ((if s.Aggregate = "" then identString o.CaseSensitive s.Table s.Column
        else s.Aggregate ++ "(" ++ identString o.CaseSensitive s.Table s.Column ++ ")")
      ++ (if s.Alias = "" then "" else " as \"" ++ s.Alias ++ "\""))
    ∧ selectString GoZero.zero
          { Aggregate := "sum", Table := "FactSales", Column := "Quantity",
            Alias := "Products Sold" }
        = "sum(FactSales.Quantity) as \"Products Sold\"" := by
  exact ⟨SelectWriter_Write_eq s o b, by decide⟩

/-- C4. For every generator and buffer, `JoinWriter` panics when `DB` is nil
and otherwise appends the concatenation, over the foreign keys of
`DB.GetTable(FromName)` in registration order, of one line per key:
`"\njoin " + ident(fk.Target) + " on " + ident(fk.Target, DB.GetTable(fk.Target).PK)
+ " = " + ident(FromName, fk.Key)`, `ident` being the identifier emitter
quoted iff `CaseSensitive`. `GetTable` itself never panics, there are as many
lines as foreign keys, and none when the base table is unregistered. -/
theorem C4_join_lines (gen : SQLGenerator) (b : Builder) :
    JoinWriter.Write { SQLGenerator := gen } b = gen.DB.map (fun db => b ++ String.join
      (((db.GetTable gen.FromName).getD GoZero.zero).FKeys.items.map fun fk =>
        "\njoin " ++ identString gen.Options.CaseSensitive "" fk.Target ++ " on "
          ++ identString gen.Options.CaseSensitive fk.Target
              ((db.GetTable fk.Target).getD GoZero.zero).PK ++ " = "
          ++ identString gen.Options.CaseSensitive gen.FromName fk.Key))
    ∧ (∀ (db : Database) (name : String), (db.GetTable name).isSome = true)
    ∧ (∀ db : Database, gen.DB = some db →
        (∀ t ∈ db.Tables.items, t.Name ≠ gen.FromName) →
        JoinWriter.Write { SQLGenerator := gen } b = some b)
    ∧ (TestTwoDimension.gen.bind fun g => WriteString (JoinWriter.Write { SQLGenerator := g }))
        = some ("\njoin DimFranchise on DimFranchise.id = FactSales.FranchiseId"
            ++ "\njoin DimStore on DimStore.id = FactSales.StoreId") := by
  refine ⟨?_, Database_GetTable_isSome, fun db hdb hun => ?_, by decide⟩
  · cases hdb : gen.DB with
    | none => simp [JoinWriter_Write_nil gen b hdb]
    | some db => simp [JoinWriter_Write_eq gen db b hdb]
  · rw [JoinWriter_Write_eq gen db b hdb, Database_GetTable_unregistered db _ hun]
    simp [GoZero.zero, String_join_nil]

/-- C5 (counterexample). Case-insensitive mode. With the foreign key
(`k`, target `""`) on base table `F` the join line is `\njoin  on id = F.k`,
whose predicate is `id = F.k` and not `.id = F.k`; with the foreign key
(`k`, target `D`) on the base table named `""` the line is
`\njoin D on D.id = k`, whose predicate is not `D.id = .k`. -/
theorem C5_counterexample :
    ((EmptyTarget.gen.bind fun g => joinString g) = some "\njoin  on id = F.k"
      ∧ (EmptyTarget.gen.bind fun g => joinString g)
          ≠ some ("\njoin " ++ "" ++ " on "
              ++ ("" ++ "." ++ "id" ++ " = " ++ "F" ++ "." ++ "k")))
    ∧ ((EmptyFromName.gen.bind fun g => joinString g) = some "\njoin D on D.id = k"
      ∧ (EmptyFromName.gen.bind fun g => joinString g)
          ≠ some ("\njoin " ++ "D" ++ " on "
              ++ ("D" ++ "." ++ "id" ++ " = " ++ "" ++ "." ++ "k"))) := by
  decide

/-- C5 (amended). For every generator with a database and
`CaseSensitive = false`, the join line of every foreign key (Key, Target) of
the base table is `"\njoin " + Target + " on "` followed by the predicate
`Target + "." + PK + " = " + FromName + "." + Key`, except that an empty
Target contributes neither itself nor its dot (the left side is `PK`), and
likewise an empty FromName (the right side is `Key`). So when FromName and
all targets are non-empty the predicate is always
`Target.PK = FromName.Key`. -/
theorem C5_join_predicate (gen : SQLGenerator) (db : Database) (b : Builder)
    (hdb : gen.DB = some db) (hcs : gen.Options.CaseSensitive = false) :
    JoinWriter.Write { SQLGenerator := gen } b = some (b ++ String.join
      (((db.GetTable gen.FromName).getD GoZero.zero).FKeys.items.map fun fk =>
        "\njoin " ++ fk.Target ++ " on "
          ++ ((if fk.Target = "" then "" else fk.Target ++ ".")
              ++ ((db.GetTable fk.Target).getD GoZero.zero).PK ++ " = "
              ++ (if gen.FromName = "" then "" else gen.FromName ++ ".") ++ fk.Key)))
    ∧ (gen.FromName ≠ "" →
        (∀ fk ∈ ((db.GetTable gen.FromName).getD GoZero.zero).FKeys.items, fk.Target ≠ "") →
        JoinWriter.Write { SQLGenerator := gen } b = some (b ++ String.join
          (((db.GetTable gen.FromName).getD GoZero.zero).FKeys.items.map fun fk =>
            "\njoin " ++ fk.Target ++ " on "
              ++ (fk.Target ++ "." ++ ((db.GetTable fk.Target).getD GoZero.zero).PK ++ " = "
                  ++ gen.FromName ++ "." ++ fk.Key)))) := by
  have key : JoinWriter.Write { SQLGenerator := gen } b = some (b ++ String.join
      (((db.GetTable gen.FromName).getD GoZero.zero).FKeys.items.map fun fk =>
        "\njoin " ++ fk.Target ++ " on "
          ++ ((if fk.Target = "" then "" else fk.Target ++ ".")
              ++ ((db.GetTable fk.Target).getD GoZero.zero).PK ++ " = "
              ++ (if gen.FromName = "" then "" else gen.FromName ++ ".") ++ fk.Key))) := by
    rw [JoinWriter_Write_eq gen db b hdb, hcs]
    congr 3
    apply List.map_congr_left
    intro fk _
    simp only [identString_eq]
    by_cases h1 : fk.Target = "" <;> by_cases h2 : gen.FromName = "" <;>
      simp [h1, h2, String.append_assoc]
  refine ⟨key, fun hfrom htgt => ?_⟩
  rw [key]
  congr 3
  apply List.map_congr_left
  intro fk hfk
  simp [hfrom, htgt fk hfk, String.append_assoc]

/-- C5 (witness): the join line of `TestOneDimension`. -/
theorem C5_join_predicate_witness :
    TestOneDimension.gen.bind (fun g => joinString g) = joinString OneDimension.gen
    ∧ JoinWriter.Write { SQLGenerator := OneDimension.gen } ""
        = some "\njoin DimFranchise on DimFranchise.id = FactSales.FranchiseId" :=
  ⟨by decide,
    ((C5_join_predicate OneDimension.gen OneDimension.db "" rfl rfl).1).trans (by decide)⟩

/-- C6. For every generator and buffer, `GroupByWriter` appends a text that
starts with `"\ngroup by\n"` when `ForceGroupBy` is set or some Select has a
non-empty Aggregate, and leaves the buffer as it is otherwise; so what it
writes is non-empty if and only if that condition holds. -/
theorem C6_group_by_iff (gen : SQLGenerator) (b : Builder) :
    ((gen.Options.ForceGroupBy = true ∨ ∃ s ∈ gen.Selects, s.Aggregate ≠ "") →
        ∃ rest, GroupByWriter.Write { SQLGenerator := gen } b = b ++ "\ngroup by\n" ++ rest)
    ∧ (¬ (gen.Options.ForceGroupBy = true ∨ ∃ s ∈ gen.Selects, s.Aggregate ≠ "") →
        GroupByWriter.Write { SQLGenerator := gen } b = b)
    ∧ (groupByString gen ≠ "" ↔
        (gen.Options.ForceGroupBy = true ∨ ∃ s ∈ gen.Selects, s.Aggregate ≠ ""))
    ∧ (GroupByWriter.ShouldWrite { SQLGenerator := gen } = true ↔
        (gen.Options.ForceGroupBy = true ∨ ∃ s ∈ gen.Selects, s.Aggregate ≠ "")) := by
  refine ⟨fun h => ?_, fun h => ?_, ?_, GroupByWriter_ShouldWrite_iff gen⟩
  · refine ⟨",\n".intercalate
      ((gen.Selects.filter fun s => decide (s.Aggregate = "")).map
        fun s => "    " ++ identString gen.Options.CaseSensitive s.Table s.Column), ?_⟩
    rw [GroupByWriter_Write_eq, if_pos h, String.append_assoc]
  · rw [GroupByWriter_Write_eq, if_neg h, String.append_empty]
  · unfold groupByString WriteString
    rw [GroupByWriter_Write_eq, String.empty_append]
    constructor
    · intro hne
      by_contra hc
      exact hne (if_neg hc)
    · intro hc hempty
      rw [if_pos hc] at hempty
      have hlen := congrArg String.length hempty
      rw [String.length_append] at hlen
      have h10 : ("\ngroup by\n" : String).length = 10 := by decide
      have h0 : ("" : String).length = 0 := rfl
      omega

/-- C7. For every generator for which GROUP BY is emitted, the output of
`GroupByWriter` is `"\ngroup by\n"` followed by one entry per Select whose
Aggregate is empty, in append order and with no Select that has an
aggregate, joined by `",\n"`, each entry being four spaces and the
identifier rendering of (namespace `s.Table`, identifier `s.Column`) quoted
iff `CaseSensitive`. -/
theorem C7_group_by_list (gen : SQLGenerator) (b : Builder)
    (h : gen.Options.ForceGroupBy = true ∨ ∃ s ∈ gen.Selects, s.Aggregate ≠ "") :
    GroupByWriter.Write { SQLGenerator := gen } b = b ++ "\ngroup by\n" ++ ",\n".intercalate
      ((gen.Selects.filter fun s => decide (s.Aggregate = "")).map
        fun s => "    " ++ identString gen.Options.CaseSensitive s.Table s.Column) := by
  rw [GroupByWriter_Write_eq, if_pos h, String.append_assoc]

/-- C7 (witness): the group-by block of `TestAggregate`. -/
theorem C7_group_by_list_witness :
    GroupByWriter.Write { SQLGenerator := AggregateSelects.gen } ""
      = "\ngroup by\n    DimFranchise.FranchiseName,\n    DimStore.StoreName" :=
  (C7_group_by_list AggregateSelects.gen ""
    (Or.inr ⟨{ Column := "Quantity", Table := "FactSales", Alias := "Products Sold",
               Aggregate := "sum" }, by decide, by decide⟩)).trans (by decide)

/-- C8 (counterexample). `TestAggregate` renders in case-insensitive mode,
no name of it contains a double quote, and the statement contains two: the
alias is written as `"Products Sold"`. -/
theorem C8_counterexample :
    (TestAggregate.gen.map fun g => g.Options.CaseSensitive) = some false
    ∧ (TestAggregate.gen.bind fun g =>
        (WriteString g.Write).map fun out => (decide ('"' ∈ out.data), quoteCount out))
        = some (true, 2) := by
  decide

/-- C8 (amended). For every generator with a database whose table names,
column names, keys, aliases and aggregate names contain no double-quote
character, if `CaseSensitive` is false then `WriteString(gen)` returns a
statement whose only double-quote characters are the two that `SelectWriter`
puts around each non-empty alias: their number is twice the number of
Selects with a non-empty Alias, and there is none when every Alias is
empty. -/
theorem C8_quote_count (gen : SQLGenerator) (db : Database)
    (hdb : gen.DB = some db) (hcs : gen.Options.CaseSensitive = false)
    (hsel : ∀ s ∈ gen.Selects, quoteCount s.Table = 0 ∧ quoteCount s.Column = 0
      ∧ quoteCount s.Alias = 0 ∧ quoteCount s.Aggregate = 0)
    (hfrom : quoteCount gen.FromName = 0)
    (hdbq : ∀ t ∈ db.Tables.items, quoteCount t.Name = 0 ∧ quoteCount t.PK = 0
      ∧ ∀ fk ∈ t.FKeys.items, quoteCount fk.Key = 0 ∧ quoteCount fk.Target = 0) :
    ∃ out, WriteString gen.Write = some out
      ∧ quoteCount out = 2 * (gen.Selects.filter fun s => decide (s.Alias ≠ "")).length
      ∧ ((∀ s ∈ gen.Selects, s.Alias = "") → '"' ∉ out.data) := by
  have hj : joinString gen = some (String.join
      (((db.GetTable gen.FromName).getD GoZero.zero).FKeys.items.map fun fk =>
        "\njoin " ++ identString false "" fk.Target ++ " on "
          ++ identString false fk.Target ((db.GetTable fk.Target).getD GoZero.zero).PK ++ " = "
          ++ identString false gen.FromName fk.Key)) := by
    unfold joinString WriteString
    rw [JoinWriter_Write_eq gen db "" hdb, String.empty_append, hcs]
  have hw : WriteString gen.Write = some
      (gen.WriteSelectSection "" ++ "\nfrom "
        ++ identString gen.Options.CaseSensitive "" gen.FromName
        ++ String.join
          (((db.GetTable gen.FromName).getD GoZero.zero).FKeys.items.map fun fk =>
            "\njoin " ++ identString false "" fk.Target ++ " on "
              ++ identString false fk.Target ((db.GetTable fk.Target).getD GoZero.zero).PK
              ++ " = " ++ identString false gen.FromName fk.Key)
        ++ groupByString gen) := by
    simp only [WriteString]
    rw [SQLGenerator_Write_eq, hj]
    rfl
  have h1 : quoteCount "select\n" = 0 := by decide
  have h2 : quoteCount "\nfrom " = 0 := by decide
  have h3 : quoteCount ",\n" = 0 := by decide
  have hcount : quoteCount
      (gen.WriteSelectSection "" ++ "\nfrom "
        ++ identString gen.Options.CaseSensitive "" gen.FromName
        ++ String.join
          (((db.GetTable gen.FromName).getD GoZero.zero).FKeys.items.map fun fk =>
            "\njoin " ++ identString false "" fk.Target ++ " on "
              ++ identString false fk.Target ((db.GetTable fk.Target).getD GoZero.zero).PK
              ++ " = " ++ identString false gen.FromName fk.Key)
        ++ groupByString gen)
      = 2 * (gen.Selects.filter fun s => decide (s.Alias ≠ "")).length := by
    simp only [quoteCount_append, quoteCount_groupByString gen hcs hsel,
      quoteCount_join_lines gen db hfrom hdbq, SQLGenerator_WriteSelectSection_eq,
      quoteCount_intercalate _ h3, quoteCount_select_entries gen.Options gen.Selects hcs hsel,
      hcs, quoteCount_identString, quoteCount_empty, hfrom, h1, h2]
    omega
  refine ⟨_, hw, hcount, fun hal => ?_⟩
  have hzero : (gen.Selects.filter fun s => decide (s.Alias ≠ "")).length = 0 := by
    rw [List.length_eq_zero, List.filter_eq_nil_iff]
    intro s hs
    simp [hal s hs]
  rw [hzero] at hcount
  exact List.count_eq_zero.1 hcount

/-- C8 (witness): `TestOneDimension` has no alias and renders without any
double quote. -/
theorem C8_quote_count_witness :
    ∃ out, WriteString OneDimension.gen.Write = some out
      ∧ quoteCount out = 2 * (OneDimension.gen.Selects.filter
          fun s => decide (s.Alias ≠ "")).length
      ∧ ((∀ s ∈ OneDimension.gen.Selects, s.Alias = "") → '"' ∉ out.data) :=
  C8_quote_count OneDimension.gen OneDimension.db rfl rfl (by decide) (by decide) (by decide)

/-- C9 (counterexample). Three databases or tables that already hold the
name or key being added. The zero `Database` (its container has the nil
equality) accepts table `T` and then panics on adding `T` again, instead of
returning false. A `Database` literal whose container was made with an
equality that never holds accepts `T` twice and ends with two tables named
`T`. A `Table` literal made without `MakeTable` accepts key `k` and panics on
adding `k` again. -/
theorem C9_counterexample :
    ((((GoZero.zero : Database).AddTable (MakeTable "T" "id")).map
          fun r => (r.1, r.2.Tables.items.map Table.Name)) = some (true, ["T"])
      ∧ (((GoZero.zero : Database).AddTable (MakeTable "T" "id")).bind
          fun r => (r.2.AddTable (MakeTable "T" "id")).map Prod.fst) = none)
    ∧ ((NeverEqual.db.AddTable (MakeTable "T" "id")).map
          fun r => (r.1, r.2.Tables.items.map Table.Name)) = some (true, ["T"])
    ∧ ((NeverEqual.db.AddTable (MakeTable "T" "id")).bind
          fun r => (r.2.AddTable (MakeTable "T" "id")).map
            fun r2 => (r2.1, r2.2.Tables.items.map Table.Name)) = some (true, ["T", "T"])
    ∧ ((LiteralTable.table.AddFKey { Key := "k", Target := "D" }).map
          fun r => (r.1, r.2.FKeys.items.map ForeignKey.Key)) = some (true, ["k"])
    ∧ ((LiteralTable.table.AddFKey { Key := "k", Target := "D" }).bind
          fun r => (r.2.AddFKey { Key := "k", Target := "D" }).map Prod.fst) = none := by
  decide

/-- C9 (amended). For every Database whose table container carries the
equality `TableEqual` (as `MakeDatabase` builds it) and every Table `t` such
that the database already holds a table with `Name = t.Name`, `AddTable(t)`
returns false and leaves the database, hence the whole table list, as it
was; likewise for every Table whose key container carries `FKeyEqual` (as
`MakeTable` builds it) and every ForeignKey whose Key is already registered,
`AddFKey` returns false and leaves the table unchanged. Adding a second
table `T` with another primary key through the API is an instance. -/
theorem C9_duplicate_add :
    (∀ (db : Database) (t : Table), db.Tables.eq = TableEqual →
        (∃ t0 ∈ db.Tables.items, t0.Name = t.Name) → db.AddTable t = some (false, db))
    ∧ (∀ (table : Table) (fk : ForeignKey), table.FKeys.eq = FKeyEqual →
        (∃ fk0 ∈ table.FKeys.items, fk0.Key = fk.Key) →
        table.AddFKey fk = some (false, table))
    ∧ (((MakeDatabase "StarDB").AddTable (MakeTable "T" "id")).bind
          fun r => (r.2.AddTable (MakeTable "T" "other")).map
            fun r2 => (r2.1, r2.2.Tables.items.map fun t => (t.Name, t.PK)))
        = some (false, [("T", "id")])
    ∧ (((MakeTable "T" "id").AddFKey { Key := "k", Target := "D" }).bind
          fun r => (r.2.AddFKey { Key := "k", Target := "E" }).map
            fun r2 => (r2.1, r2.2.FKeys.items))
        = some (false, [{ Key := "k", Target := "D" }]) := by
  refine ⟨fun db t heq hex => ?_, fun table fk heq hex => ?_, by decide, by decide⟩
  · rw [Database_AddTable_total db t heq, if_pos]
    rw [List.any_eq_true]
    obtain ⟨t0, hmem, hname⟩ := hex
    exact ⟨t0, hmem, by simp [hname]⟩
  · rw [Table_AddFKey_total table fk heq, if_pos]
    rw [List.any_eq_true]
    obtain ⟨fk0, hmem, hkey⟩ := hex
    exact ⟨fk0, hmem, by simp [hkey]⟩

/-- The uniqueness invariant on the list model, that is for a Database and a
Table that alone append to their backing arrays. Every sequence of `AddTable`
calls from `MakeDatabase` runs without panic and ends in a database whose
stored table names are pairwise distinct; every sequence of `AddFKey` calls
from `MakeTable` runs without panic and ends in a table whose stored foreign
keys have pairwise distinct Key. Each single `AddTable` / `AddFKey` on a
state with the container equality of `MakeDatabase` / `MakeTable` and
distinct names / keys returns such a state again. What a copy that shares the
array does to it is outside this statement: see `SharedArray.run`. -/
theorem unshared_unique_names :
    (∀ (name : String) (ts : List Table), ∃ db,
        (MakeDatabase name).AddTables ts = some db
          ∧ (db.Tables.items.map Table.Name).Nodup)
    ∧ (∀ (name pk : String) (fks : List ForeignKey), ∃ table,
        (MakeTable name pk).AddFKeys fks = some table
          ∧ (table.FKeys.items.map ForeignKey.Key).Nodup)
    ∧ (∀ (db : Database) (t : Table), db.Tables.eq = TableEqual →
        (db.Tables.items.map Table.Name).Nodup →
        ∃ ok db1, db.AddTable t = some (ok, db1) ∧ db1.Tables.eq = TableEqual
          ∧ (db1.Tables.items.map Table.Name).Nodup)
    ∧ (∀ (table : Table) (fk : ForeignKey), table.FKeys.eq = FKeyEqual →
        (table.FKeys.items.map ForeignKey.Key).Nodup →
        ∃ ok table1, table.AddFKey fk = some (ok, table1) ∧ table1.FKeys.eq = FKeyEqual
          ∧ (table1.FKeys.items.map ForeignKey.Key).Nodup)
    ∧ (((MakeDatabase "StarDB").AddTables
          [MakeTable "A" "id", MakeTable "B" "id", MakeTable "A" "x"]).map
          fun db => db.Tables.items.map Table.Name) = some ["A", "B"] := by
  refine ⟨fun name ts => ?_, fun name pk fks => ?_, Database_AddTable_inv,
    Table_AddFKey_inv, by decide⟩
  · obtain ⟨db, h, _, hnd⟩ :=
      Database_AddTables_inv ts (MakeDatabase name) rfl List.nodup_nil
    exact ⟨db, h, hnd⟩
  · obtain ⟨table, h, _, hnd⟩ :=
      Table_AddFKeys_inv fks (MakeTable name pk) rfl List.nodup_nil
    exact ⟨table, h, hnd⟩

/-! ## The claims, continued -/

/-- The key lookup never panics: it returns the first registered key with
that column name, or the zero key. -/
theorem Table_GetFKey_eq (table : Table) (key : String) :
    table.GetFKey key
      = some ((table.FKeys.items.find? fun fk => fk.Key == key).getD GoZero.zero) := by
  unfold Table.GetFKey FKeyByKey
  rw [Set_Find_total]
  cases List.find? (fun fk => fk.Key == key) table.FKeys.items <;> rfl

/-- What `find?` returns is the first match: nothing before it matches. -/
theorem find?_getD_first {T : Type} (p : T → Bool) (l : List T) (d : T)
    (hex : ∃ x ∈ l, p x = true) :
    ∃ pre post, l = pre ++ (l.find? p).getD d :: post ∧ p ((l.find? p).getD d) = true
      ∧ ∀ x ∈ pre, p x = false := by
  cases hf : l.find? p with
  | none =>
    obtain ⟨x, hx, hpx⟩ := hex
    exact absurd hpx (List.find?_eq_none.1 hf x hx)
  | some t =>
    obtain ⟨hpt, pre, post, hsplit, hpre⟩ := List.find?_eq_some.1 hf
    exact ⟨pre, post, hsplit, hpt, fun x hx => by simpa using hpre x hx⟩

/-- C11. For every Database and name `n`, `GetTable(n)` never panics. If some
registered table has `Name = n` it returns a registered table of that name
as stored (with its PK and foreign keys), the first in insertion order: no
table before it has the name. If none has, it returns the zero `Table`,
whose Name and PK are empty and which has no foreign key. The same holds for
`Table.GetFKey(key)`, with the zero `ForeignKey` of empty Key and Target. -/
theorem C11_lookup_or_placeholder :
    (∀ (db : Database) (n : String), (∃ t ∈ db.Tables.items, t.Name = n) →
        ∃ t pre post, db.GetTable n = some t ∧ t.Name = n
          ∧ db.Tables.items = pre ++ t :: post ∧ ∀ x ∈ pre, x.Name ≠ n)
    ∧ (∀ (db : Database) (n : String), (∀ t ∈ db.Tables.items, t.Name ≠ n) →
        db.GetTable n = some GoZero.zero)
    ∧ ((GoZero.zero : Table).Name = "" ∧ (GoZero.zero : Table).PK = ""
        ∧ (GoZero.zero : Table).FKeys.items = [])
    ∧ (∀ (table : Table) (key : String), (∃ fk ∈ table.FKeys.items, fk.Key = key) →
        ∃ fk pre post, table.GetFKey key = some fk ∧ fk.Key = key
          ∧ table.FKeys.items = pre ++ fk :: post ∧ ∀ x ∈ pre, x.Key ≠ key)
    ∧ (∀ (table : Table) (key : String), (∀ fk ∈ table.FKeys.items, fk.Key ≠ key) →
        table.GetFKey key = some GoZero.zero)
    ∧ (GoZero.zero : ForeignKey) = { Key := "", Target := "" } := by
  refine ⟨fun db n hex => ?_, Database_GetTable_unregistered, ⟨rfl, rfl, rfl⟩,
    fun table key hex => ?_, fun table key hno => ?_, rfl⟩
  · obtain ⟨t0, hmem, hname⟩ := hex
    obtain ⟨pre, post, hsplit, hp, hpre⟩ :=
      find?_getD_first (fun t => t.Name == n) db.Tables.items GoZero.zero
        ⟨t0, hmem, by simp [hname]⟩
    exact ⟨_, pre, post, Database_GetTable_eq db n, by simpa using hp, hsplit,
      fun x hx => by simpa using hpre x hx⟩
  · obtain ⟨fk0, hmem, hkey⟩ := hex
    obtain ⟨pre, post, hsplit, hp, hpre⟩ :=
      find?_getD_first (fun fk => fk.Key == key) table.FKeys.items GoZero.zero
        ⟨fk0, hmem, by simp [hkey]⟩
    exact ⟨_, pre, post, Table_GetFKey_eq table key, by simpa using hp, hsplit,
      fun x hx => by simpa using hpre x hx⟩
  · rw [Table_GetFKey_eq]
    have : List.find? (fun fk => fk.Key == key) table.FKeys.items = none := by
      rw [List.find?_eq_none]
      intro fk hfk
      simpa using hno fk hfk
    rw [this]
    rfl

/-- C12. For every generator and Select `s`, `AddSelect(s)` yields a
generator whose Selects is the old list with `s` appended at the end, whose
FromName is `s.Table` if the old FromName was empty and the old FromName
otherwise, and whose DB and Options are the old ones; it is a total
function. -/
theorem C12_add_select (g : SQLGenerator) (s : Select) :
    (g.AddSelect s).Selects = g.Selects ++ [s]
    ∧ (g.AddSelect s).FromName = (if g.FromName = "" then s.Table else g.FromName)
    ∧ (g.AddSelect s).DB = g.DB
    ∧ (g.AddSelect s).Options = g.Options := by
  unfold SQLGenerator.AddSelect
  by_cases h : g.FromName = "" <;> simp [h]

/-- Once the base table name is set, appends leave it as it is. -/
theorem AddSelects_FromName_set (sels : List Select) (g : SQLGenerator)
    (h : g.FromName ≠ "") : (g.AddSelects sels).FromName = g.FromName := by
  induction sels generalizing g with
  | nil => rfl
  | cons s rest ih =>
    have h1 : (g.AddSelect s).FromName = g.FromName := by
      simp [SQLGenerator.AddSelect, h]
    simp only [SQLGenerator.AddSelects]
    rw [ih (g.AddSelect s) (by rw [h1]; exact h), h1]

/-- From an unset base table name, appends set it to the first non-empty
table name among the appended Selects. -/
theorem AddSelects_FromName_unset (sels : List Select) (g : SQLGenerator)
    (h : g.FromName = "") :
    (g.AddSelects sels).FromName
      = ((sels.map Select.Table).find? fun t => decide (t ≠ "")).getD "" := by
  induction sels generalizing g with
  | nil => simpa [SQLGenerator.AddSelects] using h
  | cons s rest ih =>
    have h1 : (g.AddSelect s).FromName = s.Table := by
      simp [SQLGenerator.AddSelect, h]
    simp only [SQLGenerator.AddSelects, List.map_cons]
    by_cases hs : s.Table = ""
    · rw [ih (g.AddSelect s) (by rw [h1]; exact hs)]
      simp [List.find?_cons, hs]
    · rw [AddSelects_FromName_set rest (g.AddSelect s) (by rw [h1]; exact hs), h1]
      simp [List.find?_cons, hs]

/-- C13 (counterexample). From the zero generator (base table name not set),
appending a Select whose Table is the empty string and then a Select of
table `B` leaves `FromName = "B"`, which is not the table of the first
appended Select. -/
theorem C13_counterexample :
    (GoZero.zero : SQLGenerator).FromName = ""
    ∧ ((GoZero.zero : SQLGenerator).AddSelects
        [{ Column := "C", Table := "", Alias := "", Aggregate := "" },
         { Column := "D", Table := "B", Alias := "", Aggregate := "" }]).FromName = "B"
    ∧ ((GoZero.zero : SQLGenerator).AddSelects
        [{ Column := "C", Table := "", Alias := "", Aggregate := "" },
         { Column := "D", Table := "B", Alias := "", Aggregate := "" }]).FromName
        ≠ (Select.mk "C" "" "" "").Table := by
  decide

/-- C13 (amended). For every generator whose base table name is not set and
every sequence of Selects `s1..sn` appended with `AddSelect` whose first
Select has a non-empty Table, the resulting FromName is `s1.Table`. A
non-empty base table name, defaulted or set explicitly, is never changed by
later appends. In general the unset name becomes the Table of the first
appended Select whose Table is non-empty, and stays empty if there is none.
`TestSingleTable` ends with `FromName = "DimFranchise"`. -/
theorem C13_from_name_default :
    (∀ (g : SQLGenerator) (s1 : Select) (rest : List Select), g.FromName = "" →
        s1.Table ≠ "" → (g.AddSelects (s1 :: rest)).FromName = s1.Table)
    ∧ (∀ (g : SQLGenerator) (sels : List Select), g.FromName ≠ "" →
        (g.AddSelects sels).FromName = g.FromName)
    ∧ (∀ (g : SQLGenerator) (sels : List Select), g.FromName = "" →
        (g.AddSelects sels).FromName
          = ((sels.map Select.Table).find? fun t => decide (t ≠ "")).getD "")
    ∧ (TestSingleTable.gen.map fun g => g.FromName) = some "DimFranchise" := by
  refine ⟨fun g s1 rest h h1 => ?_, fun g sels h => AddSelects_FromName_set sels g h,
    fun g sels h => AddSelects_FromName_unset sels g h, by decide⟩
  rw [AddSelects_FromName_unset (s1 :: rest) g h]
  simp [List.find?_cons, h1]

/-- C14. For every `IdentifierWriter{Quote, Identifier, Namespace}` and
buffer, the text written is `q(Namespace) + "." + q(Identifier)` when
Namespace is non-empty and `q(Identifier)` alone when it is empty, where
`q(x)` is `"\"" + x + "\""` if Quote is true and `x` otherwise. The quoted
and the plain rendering of `FactSales.Quantity` are instances. -/
theorem C14_identifier_writer (iw : IdentifierWriter) (b : Builder) :
    iw.Write b = b ++
      (if iw.Namespace = "" then
        (if iw.Quote = true then "\"" ++ iw.Identifier ++ "\"" else iw.Identifier)
      else
        (if iw.Quote = true then "\"" ++ iw.Namespace ++ "\"" else iw.Namespace) ++ "."
          ++ (if iw.Quote = true then "\"" ++ iw.Identifier ++ "\"" else iw.Identifier))
    ∧ identString true "FactSales" "Quantity" = "\"FactSales\".\"Quantity\""
    ∧ identString false "FactSales" "Quantity" = "FactSales.Quantity"
    ∧ identString true "" "Quantity" = "\"Quantity\""
    ∧ identString false "" "Quantity" = "Quantity" := by
  refine ⟨?_, by decide, by decide, by decide, by decide⟩
  rw [IdentifierWriter_Write_eq]
  by_cases hn : iw.Namespace = "" <;> cases hq : iw.Quote <;>
    simp [hn, String.append_assoc]

/-- The separated loop once the separator has been used. -/
theorem JoinLoop_later (sep : String) (xs : List String) (b : Builder) :
    (LoopSeparatorJoiner.JoinLoop xs
        { First := false, Join := (TextWriter.mk sep).Write } b).2
      = String.intercalate.go b sep xs := by
  induction xs generalizing b with
  | nil => simp [LoopSeparatorJoiner.JoinLoop, String.intercalate.go]
  | cons x rest ih =>
    simp only [LoopSeparatorJoiner.JoinLoop, LoopSeparatorJoiner_Write_later,
      String.intercalate.go]
    rw [ih]
    simp [TextWriter_Write_eq, Builder_WriteString_eq]

/-- The separated loop from the fresh separator. -/
theorem JoinLoop_first (sep : String) (xs : List String) (b : Builder) :
    (LoopSeparatorJoiner.JoinLoop xs (MakeLoopSeparatorJoiner sep) b).2
      = b ++ sep.intercalate xs := by
  cases xs with
  | nil => simp [LoopSeparatorJoiner.JoinLoop, String.intercalate]
  | cons x rest =>
    simp only [LoopSeparatorJoiner.JoinLoop, MakeLoopSeparatorJoiner,
      MakeLoopSeparatorJoinerWith, LoopSeparatorJoiner_Write_first, String.intercalate]
    rw [JoinLoop_later, ← intercalate_go_append]
    simp [Builder_WriteString_eq]

/-- C15. A joiner made by `MakeLoopSeparatorJoiner(sep)` leaves the buffer as
it is on its first invocation and becomes the used joiner; the used joiner
appends exactly `sep` and stays the used joiner, so every later invocation
writes `sep`. Hence for every list of strings the loop that invokes the
joiner and then writes the item produces the items joined with `sep`
(`String.intercalate`): nothing for the empty list, the item alone for one
item, `x1 + sep + x2 + sep + x3` for three. -/
theorem C15_separator_joiner (sep : String) :
    (∀ b : Builder, (MakeLoopSeparatorJoiner sep).Write b
        = ({ First := false, Join := (TextWriter.mk sep).Write }, b))
    ∧ (∀ b : Builder,
        LoopSeparatorJoiner.Write { First := false, Join := (TextWriter.mk sep).Write } b
          = ({ First := false, Join := (TextWriter.mk sep).Write }, b ++ sep))
    ∧ (∀ (xs : List String) (b : Builder),
        (LoopSeparatorJoiner.JoinLoop xs (MakeLoopSeparatorJoiner sep) b).2
          = b ++ sep.intercalate xs)
    ∧ (LoopSeparatorJoiner.JoinLoop [] (MakeLoopSeparatorJoiner sep) "").2 = ""
    ∧ (∀ x1 : String,
        (LoopSeparatorJoiner.JoinLoop [x1] (MakeLoopSeparatorJoiner sep) "").2 = x1)
    ∧ (∀ x1 x2 x3 : String,
        (LoopSeparatorJoiner.JoinLoop [x1, x2, x3] (MakeLoopSeparatorJoiner sep) "").2
          = x1 ++ sep ++ x2 ++ sep ++ x3) := by
  refine ⟨fun b => ?_, fun b => ?_, fun xs b => JoinLoop_first sep xs b, ?_,
    fun x1 => ?_, fun x1 x2 x3 => ?_⟩
  · simp [MakeLoopSeparatorJoiner, MakeLoopSeparatorJoinerWith, LoopSeparatorJoiner.Write]
  · simp [LoopSeparatorJoiner.Write, TextWriter_Write_eq]
  · rw [JoinLoop_first]
    rfl
  · rw [JoinLoop_first]
    simp [String.intercalate, String.intercalate.go]
  · rw [JoinLoop_first]
    simp [String.intercalate, String.intercalate.go, String.append_assoc]

/-- C16 (counterexample). The zero generator, what `new(SQLGenerator)` gives
before `DB` is assigned, has a nil `DB`: rendering it panics and returns no
string, with or without a Select appended. -/
theorem C16_counterexample :
    WriteString (GoZero.zero : SQLGenerator).Write = none
    ∧ WriteString ((GoZero.zero : SQLGenerator).AddSelect
        { Column := "FranchiseName", Table := "DimFranchise", Alias := "",
          Aggregate := "" }).Write = none := by
  decide

/-- C16 (amended). For every generator with a database (non-nil `DB`),
`WriteString(gen)` returns a string: no table lookup aborts rendering. Its
join section has one line per foreign key of the base table, and for every
foreign key whose Target names no registered table the line is the usual
one with the empty string as primary key; in case-insensitive mode with
non-empty Target and FromName that line is
`"\njoin " + Target + " on " + Target + ". = " + FromName + "." + Key`. -/
theorem C16_render_total (gen : SQLGenerator) (db : Database) (hdb : gen.DB = some db) :
    (∃ out, WriteString gen.Write = some out)
    ∧ ∃ line : ForeignKey → String,
        joinString gen = some (String.join
          (((db.GetTable gen.FromName).getD GoZero.zero).FKeys.items.map line))
        ∧ (∀ fk : ForeignKey, (∀ t ∈ db.Tables.items, t.Name ≠ fk.Target) →
            line fk = "\njoin " ++ identString gen.Options.CaseSensitive "" fk.Target ++ " on "
              ++ identString gen.Options.CaseSensitive fk.Target "" ++ " = "
              ++ identString gen.Options.CaseSensitive gen.FromName fk.Key)
        ∧ (∀ fk : ForeignKey, (∀ t ∈ db.Tables.items, t.Name ≠ fk.Target) →
            gen.Options.CaseSensitive = false → fk.Target ≠ "" → gen.FromName ≠ "" →
            line fk = "\njoin " ++ fk.Target ++ " on " ++ fk.Target ++ ". = "
              ++ gen.FromName ++ "." ++ fk.Key) := by
  have hj : joinString gen = some (String.join
      (((db.GetTable gen.FromName).getD GoZero.zero).FKeys.items.map fun fk =>
        "\njoin " ++ identString gen.Options.CaseSensitive "" fk.Target ++ " on "
          ++ identString gen.Options.CaseSensitive fk.Target
              ((db.GetTable fk.Target).getD GoZero.zero).PK ++ " = "
          ++ identString gen.Options.CaseSensitive gen.FromName fk.Key)) := by
    unfold joinString WriteString
    rw [JoinWriter_Write_eq gen db "" hdb, String.empty_append]
  have hpk : ∀ fk : ForeignKey, (∀ t ∈ db.Tables.items, t.Name ≠ fk.Target) →
      ((db.GetTable fk.Target).getD GoZero.zero).PK = "" := by
    intro fk hun
    rw [Database_GetTable_unregistered db fk.Target hun]
    rfl
  refine ⟨?_, _, hj, fun fk hun => ?_, fun fk hun hcs ht hf => ?_⟩
  · simp only [WriteString]
    rw [SQLGenerator_Write_eq, hj]
    exact ⟨_, rfl⟩
  · simp only [hpk fk hun]
  · simp only [hpk fk hun, hcs, identString_eq]
    rw [show (". = " : String) = "." ++ " = " from rfl]
    simp [ht, hf, String.append_assoc, -String.reduceAppend]

/-- C16 (witness): base table `F` with a foreign key to the unregistered
table `Missing` renders, with an empty primary-key fragment. -/
theorem C16_render_total_witness :
    ((∃ out, WriteString UnresolvedTarget.gen.Write = some out)
      ∧ ∃ line : ForeignKey → String,
        joinString UnresolvedTarget.gen = some (String.join
          (((UnresolvedTarget.db.GetTable UnresolvedTarget.gen.FromName).getD
              GoZero.zero).FKeys.items.map line))
        ∧ (∀ fk : ForeignKey,
            (∀ t ∈ UnresolvedTarget.db.Tables.items, t.Name ≠ fk.Target) →
            line fk = "\njoin "
              ++ identString UnresolvedTarget.gen.Options.CaseSensitive "" fk.Target ++ " on "
              ++ identString UnresolvedTarget.gen.Options.CaseSensitive fk.Target "" ++ " = "
              ++ identString UnresolvedTarget.gen.Options.CaseSensitive
                  UnresolvedTarget.gen.FromName fk.Key)
        ∧ (∀ fk : ForeignKey,
            (∀ t ∈ UnresolvedTarget.db.Tables.items, t.Name ≠ fk.Target) →
            UnresolvedTarget.gen.Options.CaseSensitive = false → fk.Target ≠ "" →
            UnresolvedTarget.gen.FromName ≠ "" →
            line fk = "\njoin " ++ fk.Target ++ " on " ++ fk.Target ++ ". = "
              ++ UnresolvedTarget.gen.FromName ++ "." ++ fk.Key))
    ∧ WriteString UnresolvedTarget.gen.Write
        = some "select\n\nfrom F\njoin Missing on Missing. = F.k" :=
  ⟨C16_render_total UnresolvedTarget.gen UnresolvedTarget.db rfl, by decide⟩

/-- C17. For every Set and every match predicate `p` (a function that
returns a boolean), `IndexWith` returns; the result is -1 if and only if no
stored item satisfies `p`; otherwise it is the smallest index, in insertion
order, of an item satisfying `p`, and `Find` returns the item at that index
with `true`. When the result is -1, `Find` returns the zero value with
`false`. -/
theorem C17_index_and_find {T : Type} [GoZero T] (s : set.Set T) (p : T → Bool) :
    ∃ i : Int, s.IndexWith (fun x => some (p x)) = some i
      ∧ (i = -1 ↔ ∀ x ∈ s.items, p x = false)
      ∧ (i = -1 → s.Find (fun x => some (p x)) = some (GoZero.zero, false))
      ∧ (i ≠ -1 → ∃ (k : Nat) (x : T), i = (k : Int) ∧ s.items[k]? = some x ∧ p x = true
          ∧ (∀ (j : Nat) (y : T), j < k → s.items[j]? = some y → p y = false)
          ∧ s.Find (fun x => some (p x)) = some (x, true)) := by
  have hidx := IndexWithFrom_total p s.items 0
  by_cases hlt : List.findIdx p s.items < s.items.length
  · have hex : ∃ x ∈ s.items, p x = true := List.findIdx_lt_length.1 hlt
    have hget : s.items[List.findIdx p s.items]? = s.items.find? p := getElem?_findIdx p s.items
    obtain ⟨x, hfind⟩ : ∃ x, s.items.find? p = some x := by
      cases hf : s.items.find? p with
      | none =>
        obtain ⟨y, hy, hpy⟩ := hex
        exact absurd hpy (List.find?_eq_none.1 hf y hy)
      | some x => exact ⟨x, rfl⟩
    refine ⟨(List.findIdx p s.items : Int), ?_, ?_, ?_, ?_⟩
    · unfold set.Set.IndexWith
      rw [hidx, if_pos hlt, zero_add]
    · constructor
      · intro h
        omega
      · intro h
        obtain ⟨y, hy, hpy⟩ := hex
        rw [h y hy] at hpy
        exact absurd hpy (by decide)
    · intro h
      omega
    · intro _
      refine ⟨List.findIdx p s.items, x, rfl, by rw [hget, hfind], List.find?_some hfind,
        fun j y hj hy => ?_, ?_⟩
      · obtain ⟨hjlt, hyj⟩ := List.getElem?_eq_some.1 hy
        rw [← hyj]
        exact List.not_of_lt_findIdx hj
      · rw [Set_Find_total, hfind]
  · have hall : ∀ x ∈ s.items, p x = false := by
      intro x hx
      cases hpx : p x with
      | false => rfl
      | true => exact absurd (List.findIdx_lt_length.2 ⟨x, hx, hpx⟩) hlt
    have hfind : s.items.find? p = none := by
      rw [List.find?_eq_none]
      intro x hx
      simp [hall x hx]
    refine ⟨-1, ?_, ?_, ?_, ?_⟩
    · unfold set.Set.IndexWith
      rw [hidx, if_neg hlt]
    · exact ⟨fun _ => hall, fun _ => rfl⟩
    · intro _
      rw [Set_Find_total, hfind]
    · intro h
      exact absurd rfl h

/-- C18. For every two generators that share the same DB, FromName and
`Options.CaseSensitive`, `JoinWriter` does the same to every buffer (the same
text, or a panic for both when the DB is nil), whatever their Selects and
`ForceGroupBy` are. -/
theorem C18_join_independent (g1 g2 : SQLGenerator) (b : Builder)
    (hdb : g1.DB = g2.DB) (hfrom : g1.FromName = g2.FromName)
    (hcs : g1.Options.CaseSensitive = g2.Options.CaseSensitive) :
    JoinWriter.Write { SQLGenerator := g1 } b = JoinWriter.Write { SQLGenerator := g2 } b := by
  cases h2 : g2.DB with
  | none =>
    rw [JoinWriter_Write_nil g1 b (hdb.trans h2), JoinWriter_Write_nil g2 b h2]
  | some db =>
    rw [JoinWriter_Write_eq g1 db b (hdb.trans h2), JoinWriter_Write_eq g2 db b h2, hfrom, hcs]

/-- C18 (witness): on the database of `TestOneDimension`, the generator that
selects only from a table `Other` and forces GROUP BY writes the same join
section as the test's generator: the line of the foreign key to
`DimFranchise`, and no line for `Other`. -/
theorem C18_join_independent_witness :
    JoinWriter.Write { SQLGenerator := OneDimension.gen } ""
        = JoinWriter.Write { SQLGenerator := UnrelatedSelect.gen } ""
    ∧ JoinWriter.Write { SQLGenerator := UnrelatedSelect.gen } ""
        = some "\njoin DimFranchise on DimFranchise.id = FactSales.FranchiseId" :=
  ⟨C18_join_independent OneDimension.gen UnrelatedSelect.gen "" rfl rfl rfl, by decide⟩

/-- C19. For every generator in which GROUP BY is emitted and no Select has
an empty Aggregate, `GroupByWriter` appends exactly `"\ngroup by\n"`, so the
rendered statement, when the generator has a database, ends with
`"\ngroup by\n"`. -/
theorem C19_group_by_empty (gen : SQLGenerator) (b : Builder)
    (hemit : gen.Options.ForceGroupBy = true ∨ ∃ s ∈ gen.Selects, s.Aggregate ≠ "")
    (hagg : ∀ s ∈ gen.Selects, s.Aggregate ≠ "") :
    GroupByWriter.Write { SQLGenerator := gen } b = b ++ "\ngroup by\n"
    ∧ WriteString gen.Write = ((joinString gen).map fun j =>
        gen.WriteSelectSection "" ++ "\nfrom "
          ++ identString gen.Options.CaseSensitive "" gen.FromName ++ j ++ "\ngroup by\n")
    ∧ (∀ db : Database, gen.DB = some db →
        ∃ pre, WriteString gen.Write = some (pre ++ "\ngroup by\n")) := by
  have hfilter : (gen.Selects.filter fun s => decide (s.Aggregate = "")) = [] := by
    rw [List.filter_eq_nil_iff]
    intro s hs
    simpa using hagg s hs
  have hg : ∀ b0 : Builder,
      GroupByWriter.Write { SQLGenerator := gen } b0 = b0 ++ "\ngroup by\n" := by
    intro b0
    rw [GroupByWriter_Write_eq, if_pos hemit, hfilter]
    simp [String.intercalate]
  have hgs : groupByString gen = "\ngroup by\n" := by
    unfold groupByString WriteString
    rw [hg, String.empty_append]
  have hw : WriteString gen.Write = ((joinString gen).map fun j =>
      gen.WriteSelectSection "" ++ "\nfrom "
        ++ identString gen.Options.CaseSensitive "" gen.FromName ++ j ++ "\ngroup by\n") := by
    simp only [WriteString]
    rw [SQLGenerator_Write_eq, hgs]
  refine ⟨hg b, hw, fun db hdb => ?_⟩
  rw [hw]
  have hj : ∃ j, joinString gen = some j := by
    unfold joinString WriteString
    rw [JoinWriter_Write_eq gen db "" hdb]
    exact ⟨_, rfl⟩
  obtain ⟨j, hj⟩ := hj
  rw [hj]
  exact ⟨_, rfl⟩

/-- C19 (witness): the one Select `sum(FactSales.Quantity)` on the database
of `TestOneDimension` renders a statement ending with `"\ngroup by\n"`. -/
theorem C19_group_by_empty_witness :
    GroupByWriter.Write { SQLGenerator := AllAggregates.gen } "" = "" ++ "\ngroup by\n"
    ∧ WriteString AllAggregates.gen.Write
        = some ("select\n    sum(FactSales.Quantity)\nfrom FactSales"
            ++ "\njoin DimFranchise on DimFranchise.id = FactSales.FranchiseId"
            ++ "\ngroup by\n") :=
  ⟨(C19_group_by_empty AllAggregates.gen ""
      (Or.inr ⟨{ Column := "Quantity", Table := "FactSales", Alias := "", Aggregate := "sum" },
        by decide, by decide⟩) (by decide)).1, by decide⟩

/-- C20. Identifier rendering does not escape and is not injective. With
`Quote = true`, namespace `a` with identifier `b"."c` and namespace `a"."b`
with identifier `c` are distinct and both render as `"a"."b"."c"`; with
`Quote = false`, namespace `a` with identifier `b.c` and namespace `a.b`
with identifier `c` are distinct and both render as `a.b.c`. -/
theorem C20_identifier_not_injective :
    (identString true "a" "b\".\"c" = "\"a\".\"b\".\"c\""
      ∧ identString true "a\".\"b" "c" = "\"a\".\"b\".\"c\""
      ∧ (("a", "b\".\"c") : String × String) ≠ ("a\".\"b", "c"))
    ∧ (identString false "a" "b.c" = "a.b.c"
      ∧ identString false "a.b" "c" = "a.b.c"
      ∧ (("a", "b.c") : String × String) ≠ ("a.b", "c"))
    ∧ (¬ Function.Injective fun nsid : String × String => identString true nsid.1 nsid.2)
    ∧ (¬ Function.Injective fun nsid : String × String => identString false nsid.1 nsid.2) := by
  refine ⟨by decide, by decide, fun hinj => ?_, fun hinj => ?_⟩
  · have h : (("a", "b\".\"c") : String × String) = ("a\".\"b", "c") := hinj (by decide)
    exact absurd h (by decide)
  · have h : (("a", "b.c") : String × String) = ("a.b", "c") := hinj (by decide)
    exact absurd h (by decide)

/-! ## The list model and the shared backing arrays -/

theorem getD_set_self {T : Type} (h : List (List T)) (p : Nat) (v : List T)
    (hp : p < h.length) : (h.set p v).getD p [] = v := by
  rw [List.getD_eq_getElem?_getD, List.getElem?_set_self hp, Option.getD_some]

theorem getD_append_length {T : Type} (h : List (List T)) (v : List T) :
    (h ++ [v]).getD h.length [] = v := by
  rw [List.getD_eq_getElem?_getD, List.getElem?_append_right (Nat.le_refl _)]
  simp

theorem take_succ_write {T : Type} (cells : List T) (n : Nat) (item : T)
    (hn : n ≤ cells.length) :
    (cells.take n ++ [item] ++ cells.drop (n + 1)).take (n + 1) = cells.take n ++ [item] := by
  have h1 : (cells.take n).length = n := by
    rw [List.length_take]
    exact Nat.min_eq_left hn
  have h2 : (cells.take n ++ [item]).length = n + 1 := by
    rw [List.length_append, h1]
    rfl
  rw [List.take_append_eq_append_take, h2, Nat.sub_self, List.take_zero, List.append_nil,
    List.take_of_length_le (Nat.le_of_eq h2)]

/-- After `append` the returned slice shows the old elements and the item. -/
theorem append_elems {T : Type} (grow : Nat → Nat → Nat) (s : shared.SliceHeader) (item : T)
    (h : shared.Heap T) (hv : s.Valid h) :
    (s.append grow item h).1.elems (s.append grow item h).2 = s.elems h ++ [item] := by
  obtain ⟨hlen, hptr⟩ := hv
  unfold shared.SliceHeader.append
  by_cases hc : s.len < s.cap
  · simp only [hc, if_true, shared.SliceHeader.elems]
    rw [getD_set_self h s.ptr _ (hptr hc)]
    exact take_succ_write _ s.len item hlen
  · have hl : (List.take s.len (List.getD h s.ptr [])).length = s.len := by
      rw [List.length_take]
      exact Nat.min_eq_left hlen
    simp only [hc, if_false, shared.SliceHeader.elems]
    rw [getD_append_length]
    apply List.take_of_length_le
    rw [List.length_append, hl]
    exact Nat.le_refl _

/-- The slice that `append` returns is valid in the heap after the call. -/
theorem append_valid {T : Type} (grow : Nat → Nat → Nat) (s : shared.SliceHeader) (item : T)
    (h : shared.Heap T) (hv : s.Valid h) :
    (s.append grow item h).1.Valid (s.append grow item h).2 := by
  obtain ⟨hlen, hptr⟩ := hv
  unfold shared.SliceHeader.append
  by_cases hc : s.len < s.cap
  · simp only [hc, if_true, shared.SliceHeader.Valid]
    rw [getD_set_self h s.ptr _ (hptr hc)]
    refine ⟨?_, fun _ => ?_⟩
    · simp only [List.length_append, List.length_take, List.length_cons, List.length_nil,
        List.length_drop]
      omega
    · rw [List.length_set]
      exact hptr hc
  · have hl : (List.take s.len (List.getD h s.ptr [])).length = s.len := by
      rw [List.length_take]
      exact Nat.min_eq_left hlen
    simp only [hc, if_false, shared.SliceHeader.Valid, shared.SliceHeader.elems]
    rw [getD_append_length]
    refine ⟨?_, fun _ => ?_⟩
    · rw [List.length_append, hl]
      exact Nat.le_refl _
    · rw [List.length_append]
      exact Nat.lt_succ_self _

/-- The list model is what the receiver shows: on a valid slice, `Add` on
the heap returns the same flag as `Add` of the list model on the shown set,
and the returned set shows what the list model returns. -/
theorem shared_Add_view {T : Type} (grow : Nat → Nat → Nat) (s : shared.Set T) (item : T)
    (h : shared.Heap T) (hv : s.items.Valid h) :
    ((s.Add grow item h).map fun r => (r.1, r.2.1.view r.2.2)) = (s.view h).Add item := by
  unfold shared.Set.Add set.Set.Add
  cases hidx : (s.view h).Index item with
  | none => rfl
  | some index =>
    by_cases hi : index = -1
    · simp only [hi, if_true, Option.map_some', shared.Set.view]
      rw [append_elems grow s.items item h hv]
    · simp only [hi, if_false, Option.map_some']

/-- On the heap, one `AddFKey` on a table with the equality of `MakeTable`, a
valid slice and distinct keys returns a table that is so again. -/
theorem shared_AddFKey_inv (grow : Nat → Nat → Nat) (table : shared.Table) (fk : ForeignKey)
    (m : shared.Memory) (heq : table.FKeys.eq = FKeyEqual)
    (hv : table.FKeys.items.Valid m.fkeys) (hnd : (table.keys m).Nodup) :
    ∃ ok table1 m1, table.AddFKey grow fk m = some (ok, table1, m1)
      ∧ table1.FKeys.eq = FKeyEqual ∧ table1.FKeys.items.Valid m1.fkeys
      ∧ (table1.keys m1).Nodup := by
  have hidx : (table.FKeys.view m.fkeys).Index fk
      = some (if List.findIdx (fun x : ForeignKey => fk.Key == x.Key)
              (table.FKeys.items.elems m.fkeys)
            < (table.FKeys.items.elems m.fkeys).length
          then 0 + (List.findIdx (fun x : ForeignKey => fk.Key == x.Key)
            (table.FKeys.items.elems m.fkeys) : Int) else -1) := by
    unfold set.Set.Index set.Set.IndexWith set.EqualityMatcher shared.Set.view
    simp only [heq]
    exact IndexWithFrom_total (fun x : ForeignKey => fk.Key == x.Key) _ 0
  unfold shared.Table.AddFKey shared.Set.Add
  rw [hidx]
  by_cases hlt : List.findIdx (fun x : ForeignKey => fk.Key == x.Key)
      (table.FKeys.items.elems m.fkeys) < (table.FKeys.items.elems m.fkeys).length
  · have hne : ¬ ((0 : Int) + (List.findIdx (fun x : ForeignKey => fk.Key == x.Key)
        (table.FKeys.items.elems m.fkeys) : Int) = -1) := by omega
    simp only [hlt, if_true, hne, if_false]
    exact ⟨false, table, m, rfl, heq, hv, hnd⟩
  · simp only [hlt, if_false, if_true]
    refine ⟨true, _, _, rfl, heq, append_valid grow _ fk _ hv, ?_⟩
    have hnot : fk.Key ∉ (table.FKeys.items.elems m.fkeys).map ForeignKey.Key := by
      intro hmem
      obtain ⟨x, hx, hkey⟩ := List.mem_map.1 hmem
      exact hlt (List.findIdx_lt_length.2 ⟨x, hx, by simp [hkey]⟩)
    simp only [shared.Table.keys]
    rw [append_elems grow _ fk _ hv, List.map_append, List.nodup_append]
    exact ⟨hnd, List.nodup_singleton _, by simpa using hnot⟩

/-- On the heap, a sequence of `AddFKey` calls on one table with no other
call in between keeps the keys it shows distinct, whatever capacities the
runtime chooses. -/
theorem shared_AddFKeys_inv (grow : Nat → Nat → Nat) (fks : List ForeignKey)
    (table : shared.Table) (m : shared.Memory) (heq : table.FKeys.eq = FKeyEqual)
    (hv : table.FKeys.items.Valid m.fkeys) (hnd : (table.keys m).Nodup) :
    ∃ table1 m1, table.AddFKeys grow fks m = some (table1, m1)
      ∧ table1.FKeys.eq = FKeyEqual ∧ table1.FKeys.items.Valid m1.fkeys
      ∧ (table1.keys m1).Nodup := by
  induction fks generalizing table m with
  | nil => exact ⟨table, m, rfl, heq, hv, hnd⟩
  | cons fk rest ih =>
    obtain ⟨ok, t1, m1, hadd, heq1, hv1, hnd1⟩ := shared_AddFKey_inv grow table fk m heq hv hnd
    obtain ⟨t2, m2, hrest, heq2, hv2, hnd2⟩ := ih t1 m1 heq1 hv1 hnd1
    exact ⟨t2, m2, by simp only [shared.Table.AddFKeys, hadd, hrest], heq2, hv2, hnd2⟩

/-- On the heap, every sequence of `AddFKey` calls on a table fresh from
`MakeTable`, with no call on a copy in between, runs without panic and ends
with distinct keys. -/
theorem shared_AddFKeys_unique (grow : Nat → Nat → Nat) (name pk : String)
    (fks : List ForeignKey) (m : shared.Memory) :
    ∃ table1 m1, (shared.MakeTable name pk).AddFKeys grow fks m = some (table1, m1)
      ∧ (table1.keys m1).Nodup := by
  obtain ⟨t1, m1, h, _, _, hnd⟩ :=
    shared_AddFKeys_inv grow fks (shared.MakeTable name pk) m rfl
      ⟨Nat.zero_le _, fun hc => absurd hc (Nat.lt_irrefl 0)⟩
      (by simp [shared.Table.keys, shared.MakeTable, shared.MakeSet, shared.SliceHeader.nil,
            shared.SliceHeader.elems])
  exact ⟨t1, m1, h, hnd⟩

/-- C10 (code bug). Uniqueness is not kept when a copy of a table is appended
to. Table `s` gets the keys `a`..`e`, which leaves its slice with length 5 in
an array of capacity 8; `AddTable` stores a copy of `s`; `s` gets `f` and `g`
in the same array, cells 5 and 6; `GetTable` returns the stored copy, of
length 5, and `AddFKey` of key `g` on it finds no `g` among `a`..`e`, returns
true and writes cell 5 of the shared array. At the end `s` shows the keys
`a b c d e g g`: key `g` twice, key `f` lost. -/
theorem C10_shared_array_duplicate :
    shared.SharedArray.run
        = some (true, ["a", "b", "c", "d", "e", "g"], ["a", "b", "c", "d", "e", "g", "g"])
    ∧ ¬ (["a", "b", "c", "d", "e", "g", "g"] : List String).Nodup
    ∧ shared.SharedArray.headers
        = some [{ ptr := 0, len := 1, cap := 1 }, { ptr := 1, len := 2, cap := 2 },
            { ptr := 2, len := 3, cap := 4 }, { ptr := 2, len := 4, cap := 4 },
            { ptr := 3, len := 5, cap := 8 }, { ptr := 3, len := 6, cap := 8 },
            { ptr := 3, len := 7, cap := 8 }] := by
  decide

end sql

end Olap
